import Mathlib

/-!
Verification development for the merge-jwl repository (src/cleaner.rs,
src/merger.rs, src/database.rs).

Modelling conventions for the shallow embedding:
* Rust `u32`/`u128` row-ids and values are modelled as `Nat`; no verified
  property depends on fixed-width wraparound (ids only ever increase by one
  from a list maximum, and slot arithmetic is bounded by 10).
* `Rc<String>` is modelled as `String` (the Rust code compares by value).
* `Vec<T>` is `List T`; `Vec::push` is append at the right end.
* `HashMap` is an association list kept most-recent-insert-first, so that
  `List.lookup` (first match) realizes the map's overwrite-on-insert
  semantics; maps built by `collect()` from an iterator are therefore the
  reversed list of key/value pairs.  `HashSet` membership is `List.contains`.
* Fallible Rust code (`Result`, `panic!`, `expect`, `assert!`) is modelled
  with `Except String`; the distinction between an error return and a panic
  is not observable in any claim.
* `chrono::DateTime::parse_from_rfc3339` is an external library call; the
  merge is parameterized by `parseTs : String → Except String Int` standing
  for it (timestamps map to instants, compared by `<`).
* Rust strings are UTF-8 byte sequences; `parse_guid` is modelled on
  `String.data` (chars).  The two views coincide extensionally here: the
  Rust function can only succeed on pure-ASCII input (every group byte must
  be an ASCII hex digit or `+`), and both models fail on everything else.
-/

/-- `database.rs` struct `Location`. -/
structure Location where
  location_id : Nat
  book_number : Option Nat
  chapter_number : Option Nat
  document_id : Option Nat
  track : Option Nat
  issue_tag_number : Nat
  key_symbol : Option String
  meps_language : Nat
  type : Nat
  title : Option String
deriving DecidableEq, Repr

/-- `database.rs` struct `Note`. -/
structure Note where
  note_id : Nat
  guid : String
  user_mark_id : Option Nat
  location_id : Option Nat
  title : Option String
  content : Option String
  last_modified : String
  block_type : Nat
  block_identifier : Option Nat
deriving DecidableEq, Repr

/-- `database.rs` struct `InputField`. -/
structure InputField where
  location_id : Nat
  text_tag : String
  value : String
deriving DecidableEq, Repr

/-- `database.rs` struct `Tag`. -/
structure Tag where
  tag_id : Nat
  type : Nat
  name : String
  image_filename : Option String
deriving DecidableEq, Repr

/-- `database.rs` struct `TagMap`. -/
structure TagMap where
  tag_map_id : Nat
  playlist_item_id : Option Nat
  location_id : Option Nat
  note_id : Option Nat
  tag_id : Nat
  position : Nat
deriving DecidableEq, Repr

/-- `database.rs` struct `BlockRange`. -/
structure BlockRange where
  block_range_id : Nat
  block_type : Nat
  identifier : Nat
  start_token : Option Nat
  end_token : Option Nat
  user_mark_id : Nat
deriving DecidableEq, Repr

/-- `database.rs` struct `Bookmark`. -/
structure Bookmark where
  bookmark_id : Nat
  location_id : Nat
  publication_location_id : Nat
  slot : Nat
  title : String
  snippet : Option String
  block_type : Nat
  block_identifier : Option Nat
deriving DecidableEq, Repr

/-- `database.rs` struct `UserMark`. -/
structure UserMark where
  user_mark_id : Nat
  color_index : Nat
  location_id : Nat
  style_index : Nat
  user_mark_guid : String
  version : Nat
deriving DecidableEq, Repr

/-- `database.rs` struct `Database` (the in-memory Model). -/
structure Database where
  schema_sql : List String
  last_modified : String
  locations : List Location
  notes : List Note
  input_fields : List InputField
  tags : List Tag
  tag_maps : List TagMap
  block_ranges : List BlockRange
  bookmarks : List Bookmark
  user_marks : List UserMark
deriving DecidableEq, Repr

/-- Rust `iterator.max().unwrap_or(0)` on a list of `Nat`. -/
def maxOr0 (l : List Nat) : Nat := l.foldr max 0

/-! ## Cleaner (`cleaner.rs`) -/

/-- The loop of `Cleaner::clean_block_ranges`, already applied to the
reversed `block_ranges` vector: keep a range if its `user_mark_id` is a
known UserMark id and has not been seen before (`user_mark_ids_found`). -/
def retainRanges (user_mark_ids : List Nat) : List BlockRange → List Nat → List BlockRange
  | [], _ => []
  | r :: rest, found =>
    if user_mark_ids.contains r.user_mark_id then
      if found.contains r.user_mark_id then
        retainRanges user_mark_ids rest found
      else
        r :: retainRanges user_mark_ids rest (r.user_mark_id :: found)
    else
      retainRanges user_mark_ids rest found

/-- `Cleaner::clean_block_ranges`; returns the model and the updated
`rows_removed` counter. -/
def clean_block_ranges (db : Database) (rows_removed : Nat) : Database × Nat :=
  if db.block_ranges.isEmpty then (db, rows_removed)
  else
    let user_mark_ids := db.user_marks.map (·.user_mark_id)
    let retained := retainRanges user_mark_ids db.block_ranges.reverse []
    ({ db with block_ranges := retained },
      rows_removed + (db.block_ranges.length - retained.length))

/-- `Cleaner::location_ids_in_use`: the ids referenced by any Bookmark
(`location_id` and `publication_location_id`), Note, UserMark or TagMap. -/
def location_ids_in_use (db : Database) : List Nat :=
  (db.bookmarks.foldr (fun b acc => b.location_id :: b.publication_location_id :: acc) [])
    ++ db.notes.filterMap (·.location_id)
    ++ db.user_marks.map (·.location_id)
    ++ db.tag_maps.filterMap (·.location_id)

/-- `Cleaner::clean_locations`: `locations.iter().rev().filter(in_use).collect()`. -/
def clean_locations (db : Database) (rows_removed : Nat) : Database × Nat :=
  let in_use := location_ids_in_use db
  let remaining := db.locations.reverse.filter (fun l => in_use.contains l.location_id)
  ({ db with locations := remaining },
    rows_removed + (db.locations.length - remaining.length))

/-- `cleaner.rs` `clean`: block-range pruning, then location pruning. -/
def clean (db : Database) : Database × Nat :=
  let s1 := clean_block_ranges db 0
  clean_locations s1.1 s1.2

/-! ## GUID parser (`merger.rs::parse_guid`) -/

/-- ASCII hexadecimal digit test. -/
def isHexDigit (c : Char) : Bool :=
  (('0' ≤ c) && (c ≤ '9')) || (('a' ≤ c) && (c ≤ 'f')) || (('A' ≤ c) && (c ≤ 'F'))

/-- Numeric value of an ASCII hex digit. -/
def hexVal (c : Char) : Nat :=
  if ('0' ≤ c) && (c ≤ '9') then c.toNat - '0'.toNat
  else if ('a' ≤ c) && (c ≤ 'f') then c.toNat - 'a'.toNat + 10
  else c.toNat - 'A'.toNat + 10

/-- Value of a big-endian hex digit string. -/
def hexNat (cs : List Char) : Nat := cs.foldl (fun acc c => acc * 16 + hexVal c) 0

/-- Rust `uN::from_str_radix(s, 16)` for an unsigned `width`-bit integer:
an optional leading `'+'` followed by at least one hex digit, value below
`2 ^ width`.  (A lone `'+'`, an empty string, any other character — including
a leading `'-'` on an unsigned type — or an overflow is an error; the model
collapses Rust's distinct `ParseIntError` kinds into `.error`.) -/
def from_str_radix16 (width : Nat) (cs : List Char) : Except String Nat :=
  match cs with
  | [] => .error "cannot parse integer from empty string"
  | c :: rest =>
    let digits := if c = '+' then rest else c :: rest
    if digits.isEmpty then .error "invalid digit found in string"
    else if digits.all isHexDigit then
      if hexNat digits < 2 ^ width then .ok (hexNat digits)
      else .error "number too large to fit in target type"
    else .error "invalid digit found in string"

/-- `merger.rs::parse_guid`: 36 bytes, dashes at 8/13/18/23, five hex groups
combined as `node | seq<<48 | hi<<64 | mid<<80 | low<<96`. -/
def parse_guid (input : String) : Except String Nat :=
  let cs := input.data
  if cs.length ≠ 36 then .error "GUID has invalid length"
  else if cs.get? 8 ≠ some '-' ∨ cs.get? 13 ≠ some '-' ∨
      cs.get? 18 ≠ some '-' ∨ cs.get? 23 ≠ some '-' then
    .error "GUID has invalid separators"
  else do
    let low ← from_str_radix16 32 (cs.take 8)
    let mid ← from_str_radix16 16 ((cs.drop 9).take 4)
    let hi ← from_str_radix16 16 ((cs.drop 14).take 4)
    let seq ← from_str_radix16 16 ((cs.drop 19).take 4)
    let node ← from_str_radix16 128 ((cs.drop 24).take 12)
    pure (node ||| (seq <<< 48) ||| (hi <<< 64) ||| (mid <<< 80) ||| (low <<< 96))

/-! ## Merge engine (`merger.rs`) -/

/-- `merger.rs` struct `NoteText` (the (title, content, last-modified) triple). -/
structure NoteText where
  title : Option String
  content : Option String
  date : String
deriving DecidableEq, Repr

/-- `NoteText::from`. -/
def NoteText.from (note : Note) : NoteText :=
  { title := note.title, content := note.content, date := note.last_modified }

/-- `merger.rs` enum `Message` (the wasm-only `Error` variant is compiled out
of the native target and never produced by the merge logic). -/
inductive Message where
  | NoteUpdate (before : NoteText) (after : NoteText)
  | BookmarkOverflow (key_symbol : Option String) (issue_tag_number : Nat)
      (title : String) (snippet : Option String)
deriving DecidableEq, Repr

/-- `merger.rs` struct `LocationValue`: the value-identity projection of a
Location (all fields except the row-id and the title). -/
structure LocationValue where
  book_number : Option Nat
  chapter_number : Option Nat
  document_id : Option Nat
  track : Option Nat
  issue_tag_number : Nat
  key_symbol : Option String
  meps_language : Nat
  type : Nat
deriving DecidableEq, Repr

/-- `LocationValue::from`. -/
def LocationValue.from (location : Location) : LocationValue :=
  { book_number := location.book_number
    chapter_number := location.chapter_number
    document_id := location.document_id
    track := location.track
    issue_tag_number := location.issue_tag_number
    key_symbol := location.key_symbol
    meps_language := location.meps_language
    type := location.type }

/-- `merger.rs` struct `LocationMerge` (the location interner state). -/
structure LocationMerge where
  location_translate : List (Nat × Nat × LocationValue)
  src_location_index : List (Nat × Location)
  dst_location_value_index : List (LocationValue × Nat)
  location_max_id : Nat
deriving Repr

/-- `merger.rs` struct `Merge` (one source/destination pass). -/
structure MergeState where
  src : Database
  dst : Database
  messages : List Message
  user_mark_translate : List (Nat × Nat)
  note_translate : List (Nat × Nat)
  tag_translate : List (Nat × Nat)
  location : LocationMerge
deriving Repr

/-- `Merge::new`: drains the source locations into `src_location_index`,
indexes the destination locations by value, records the max location id. -/
def Merge.new (src dst : Database) (messages : List Message) : MergeState :=
  { src := { src with locations := [] }
    dst := dst
    messages := messages
    user_mark_translate := []
    note_translate := []
    tag_translate := []
    location :=
      { location_translate := []
        src_location_index := (src.locations.map (fun l => (l.location_id, l))).reverse
        dst_location_value_index :=
          (dst.locations.map (fun l => (LocationValue.from l, l.location_id))).reverse
        location_max_id := maxOr0 (dst.locations.map (·.location_id)) } }

/-- `LocationMerge::insert_location`: translate a source location id to a
destination location id, reusing a value-identical destination Location when
one exists and otherwise pushing the source Location under a fresh id.
Returns the updated interner, the updated destination locations, and the id. -/
def insert_location (lm : LocationMerge) (dst : List Location) (location_id : Nat) :
    Except String (LocationMerge × List Location × Nat) :=
  match lm.location_translate.lookup location_id with
  | some translation => .ok (lm, dst, translation.1)
  | none =>
    match lm.src_location_index.lookup location_id with
    | none => .error "Foreign key LocationId violated"
    | some location =>
      let lm := { lm with
        src_location_index := lm.src_location_index.filter (fun p => p.1 != location_id) }
      let value := LocationValue.from location
      match lm.dst_location_value_index.lookup value with
      | some equivalent =>
        .ok ({ lm with location_translate := (location_id, equivalent, value) :: lm.location_translate },
          dst, equivalent)
      | none =>
        let new_id := lm.location_max_id + 1
        .ok ({ lm with
            location_max_id := new_id
            location_translate := (location_id, new_id, value) :: lm.location_translate },
          dst ++ [{ location with location_id := new_id }], new_id)

/-- The slot probe of `Merge::merge_bookmarks`: first (absolute) index `i`
at which the sorted slot list differs from `i`
(`.enumerate().find(|(i, b)| b != i)`). -/
def findSlot : List Nat → Nat → Option Nat
  | [], _ => none
  | b :: rest, i => if b ≠ i then some i else findSlot rest (i + 1)

/-- Body of the `merge_bookmarks` loop for one source Bookmark. -/
def mergeBookmarkStep (s : MergeState) (max_id : Nat) (src : Bookmark) :
    Except String (MergeState × Nat) := do
  let (lm, dstLocs, new_location_id) ← insert_location s.location s.dst.locations src.location_id
  let src_publication_location_id := src.publication_location_id
  let (lm, dstLocs, new_publication_location_id) ←
    insert_location lm dstLocs src.publication_location_id
  let src := { src with
    location_id := new_location_id
    publication_location_id := new_publication_location_id
    bookmark_id := max_id + 1 }
  let s := { s with location := lm, dst := { s.dst with locations := dstLocs } }
  let slots := ((s.dst.bookmarks.filter
    (fun b => b.publication_location_id == src.publication_location_id)).map (·.slot)) ++ [10]
  if slots.contains src.slot then
    match findSlot (List.insertionSort (· ≤ ·) slots) 0 with
    | some slot =>
      .ok ({ s with dst :=
        { s.dst with bookmarks := s.dst.bookmarks ++ [{ src with slot := slot }] } }, max_id + 1)
    | none =>
      match lm.location_translate.lookup src_publication_location_id with
      | none => .error "location_translate unwrap failed"
      | some translation =>
        .ok ({ s with messages := s.messages ++
          [.BookmarkOverflow translation.2.key_symbol translation.2.issue_tag_number
            src.title src.snippet] }, max_id + 1)
  else
    .ok ({ s with dst := { s.dst with bookmarks := s.dst.bookmarks ++ [src] } }, max_id + 1)

/-- The `merge_bookmarks` loop over the drained source bookmarks. -/
def mergeBookmarksLoop (s : MergeState) (max_id : Nat) :
    List Bookmark → Except String MergeState
  | [] => .ok s
  | b :: rest => do
    let (s, max_id) ← mergeBookmarkStep s max_id b
    mergeBookmarksLoop s max_id rest

/-- `Merge::merge_bookmarks`. -/
def merge_bookmarks (s : MergeState) : Except String MergeState :=
  if s.src.bookmarks.isEmpty then .ok s
  else
    let max_id := maxOr0 (s.dst.bookmarks.map (·.bookmark_id))
    let srcBookmarks := s.src.bookmarks
    mergeBookmarksLoop { s with src := { s.src with bookmarks := [] } } max_id srcBookmarks

deriving instance DecidableEq for Except

/-- Build the destination-UserMark guid map (`parse_guid(guid) → user_mark_id`);
`collect::<Result<HashMap>>` stops at the first malformed guid, and a later
duplicate key overwrites an earlier one (most-recent-first association list). -/
def buildUserMarkGuidMap (acc : List (Nat × Nat)) :
    List UserMark → Except String (List (Nat × Nat))
  | [] => .ok acc
  | u :: rest => do
    let g ← parse_guid u.user_mark_guid
    buildUserMarkGuidMap ((g, u.user_mark_id) :: acc) rest

/-- The `merge_user_marks` loop over the drained source user marks. -/
def mergeUserMarksLoop (guid_map : List (Nat × Nat)) (s : MergeState) (max_id : Nat) :
    List UserMark → Except String MergeState
  | [] => .ok s
  | src :: rest => do
    let g ← parse_guid src.user_mark_guid
    match guid_map.lookup g with
    | some existing =>
      if (s.user_mark_translate.lookup src.user_mark_id).isSome then
        .error "Primary key UserMark violated"
      else
        mergeUserMarksLoop guid_map
          { s with user_mark_translate := (src.user_mark_id, existing) :: s.user_mark_translate }
          max_id rest
    | none => do
      let src_id := src.user_mark_id
      let (lm, dstLocs, new_location_id) ←
        insert_location s.location s.dst.locations src.location_id
      let src := { src with location_id := new_location_id, user_mark_id := max_id + 1 }
      mergeUserMarksLoop guid_map
        { s with
          location := lm
          user_mark_translate := (src_id, max_id + 1) :: s.user_mark_translate
          dst := { s.dst with locations := dstLocs, user_marks := s.dst.user_marks ++ [src] } }
        (max_id + 1) rest

/-- `Merge::merge_user_marks`. -/
def merge_user_marks (s : MergeState) : Except String MergeState :=
  if s.src.user_marks.isEmpty then .ok s
  else do
    let guid_map ← buildUserMarkGuidMap [] s.dst.user_marks
    let max_id := maxOr0 (s.dst.user_marks.map (·.user_mark_id))
    let srcUserMarks := s.src.user_marks
    mergeUserMarksLoop guid_map { s with src := { s.src with user_marks := [] } }
      max_id srcUserMarks

/-- Whether a destination Note is the one keyed by parsed guid `g`. -/
def noteMatchesGuid (g : Nat) (n : Note) : Bool :=
  decide (parse_guid n.guid = Except.ok g)

/-- Last index (and element) satisfying `p` — the entry that survives in a
`HashMap` built by inserting in list order (later duplicates overwrite). -/
def findLastWithIdx (p : α → Bool) : List α → Option (Nat × α)
  | [] => none
  | a :: rest =>
    match findLastWithIdx p rest with
    | some (i, x) => some (i + 1, x)
    | none => if p a then some (0, a) else none

/-- The upfront `parse_guid` pass over destination Notes performed while
building `guid_map` (`collect::<Result<HashMap>>`). -/
def checkNoteGuids : List Note → Except String Unit
  | [] => .ok ()
  | n :: rest => do
    let _ ← parse_guid n.guid
    checkNoteGuids rest

/-- The `merge_notes` loop over the drained source notes.  On a guid match the
destination note is updated in place when strictly older; note that the code
computes `before` from `&**dst` only after having overwritten it. -/
def mergeNotesLoop (parseTs : String → Except String Int) (s : MergeState)
    (new_notes : List Note) (max_note_id : Nat) :
    List Note → Except String (MergeState × List Note)
  | [] => .ok (s, new_notes)
  | src :: rest => do
    let g ← parse_guid src.guid
    match findLastWithIdx (noteMatchesGuid g) s.dst.notes with
    | some (i, dstNote) => do
      let src_time ← parseTs src.last_modified
      let dst_time ← parseTs dstNote.last_modified
      let step :=
        if dst_time < src_time then
          let updated := { dstNote with
            title := src.title, content := src.content, last_modified := src.last_modified }
          (s.dst.notes.set i updated, NoteText.from updated, NoteText.from src)
        else
          (s.dst.notes, NoteText.from src, NoteText.from dstNote)
      let messages :=
        if step.2.1 ≠ step.2.2 then s.messages ++ [.NoteUpdate step.2.1 step.2.2]
        else s.messages
      mergeNotesLoop parseTs
        { s with
          dst := { s.dst with notes := step.1 }
          messages := messages
          note_translate := (src.note_id, dstNote.note_id) :: s.note_translate }
        new_notes max_note_id rest
    | none => do
      let new_id := max_note_id + 1
      let s := { s with note_translate := (src.note_id, new_id) :: s.note_translate }
      let src := { src with note_id := new_id }
      let src ← (match src.user_mark_id with
        | some user_mark_id =>
          match s.user_mark_translate.lookup user_mark_id with
          | some translated => .ok { src with user_mark_id := some translated }
          | none => .error "Foreign key Note UserMark violated"
        | none => .ok src)
      match src.location_id with
      | some location_id => do
        let (lm, dstLocs, new_location_id) ←
          insert_location s.location s.dst.locations location_id
        let src := { src with location_id := some new_location_id }
        mergeNotesLoop parseTs
          { s with location := lm, dst := { s.dst with locations := dstLocs } }
          (new_notes ++ [src]) new_id rest
      | none =>
        mergeNotesLoop parseTs s (new_notes ++ [src]) new_id rest

/-- `Merge::merge_notes`. -/
def merge_notes (parseTs : String → Except String Int) (s : MergeState) :
    Except String MergeState :=
  if s.src.notes.isEmpty then .ok s
  else do
    let max_note_id := maxOr0 (s.dst.notes.map (·.note_id))
    checkNoteGuids s.dst.notes
    let srcNotes := s.src.notes
    let (s, new_notes) ←
      mergeNotesLoop parseTs { s with src := { s.src with notes := [] } } [] max_note_id srcNotes
    .ok { s with dst := { s.dst with notes := s.dst.notes ++ new_notes } }

/-- `merger.rs::block_ranges_overlap`.  The token fields are `Option<u32>`;
after the equality and `is_none` tests all four tokens are `some`, so the
Rust `Option` comparisons reduce to comparisons of the contained values. -/
def block_ranges_overlap (a b : BlockRange) : Bool :=
  if a.start_token == b.start_token && a.end_token == b.end_token then true
  else
    match a.start_token, a.end_token, b.start_token, b.end_token with
    | some a1, some a2, some b1, some b2 => decide (b1 < a2) && decide (b2 > a1)
    | _, _, _, _ => false

/-- The `merge_block_ranges` loop over the drained source block ranges.
`group_by_user_mark` collects, per translated user-mark id, the clones of
the source ranges already accepted in this pass. -/
def mergeBlockRangesLoop (s : MergeState) (group_by_user_mark : List (Nat × List BlockRange))
    (max_id : Nat) : List BlockRange → Except String MergeState
  | [] => .ok s
  | src :: rest =>
    match s.user_mark_translate.lookup src.user_mark_id with
    | none => .error "Foreign key BlockRange UserMark violated"
    | some user_mark_id =>
      let existing := (group_by_user_mark.lookup user_mark_id).getD []
      if existing.any (fun b => block_ranges_overlap b src) then
        mergeBlockRangesLoop s group_by_user_mark max_id rest
      else
        mergeBlockRangesLoop
          { s with dst := { s.dst with block_ranges := s.dst.block_ranges ++
            [{ src with block_range_id := max_id + 1, user_mark_id := user_mark_id }] } }
          ((user_mark_id, existing ++ [src]) :: group_by_user_mark)
          (max_id + 1) rest

/-- `Merge::merge_block_ranges`. -/
def merge_block_ranges (s : MergeState) : Except String MergeState :=
  if s.src.block_ranges.isEmpty then .ok s
  else
    let max_id := maxOr0 (s.dst.block_ranges.map (·.block_range_id))
    let srcRanges := s.src.block_ranges
    mergeBlockRangesLoop { s with src := { s.src with block_ranges := [] } } [] max_id srcRanges

/-- The `merge_tags` loop (infallible). -/
def mergeTagsLoop (index : List ((Nat × String) × Nat)) (s : MergeState) (max_id : Nat)
    (new_tags : List Tag) : List Tag → MergeState × List Tag
  | [] => (s, new_tags)
  | src :: rest =>
    match index.lookup (src.type, src.name) with
    | some existing =>
      mergeTagsLoop index
        { s with tag_translate := (src.tag_id, existing) :: s.tag_translate }
        max_id new_tags rest
    | none =>
      mergeTagsLoop index
        { s with tag_translate := (src.tag_id, max_id + 1) :: s.tag_translate }
        (max_id + 1) (new_tags ++ [{ src with tag_id := max_id + 1 }]) rest

/-- `Merge::merge_tags`. -/
def merge_tags (s : MergeState) : Except String MergeState :=
  if s.src.tags.isEmpty then .ok s
  else
    let index := (s.dst.tags.map (fun t => ((t.type, t.name), t.tag_id))).reverse
    let max_id := maxOr0 (s.dst.tags.map (·.tag_id))
    let srcTags := s.src.tags
    let (s, new_tags) :=
      mergeTagsLoop index { s with src := { s.src with tags := [] } } max_id [] srcTags
    .ok { s with dst := { s.dst with tags := s.dst.tags ++ new_tags } }

/-- `merger.rs::insert_tag_map`. -/
def insert_tag_map (dst : Database) (max_id : Nat) (src : TagMap) : Database × Nat :=
  ({ dst with tag_maps := dst.tag_maps ++ [{ src with tag_map_id := max_id + 1 }] }, max_id + 1)

/-- The `merge_tag_maps` loop over the drained source tag maps. -/
def mergeTagMapsLoop (location_index note_index : List (Nat × Nat)) (s : MergeState)
    (max_id : Nat) : List TagMap → Except String MergeState
  | [] => .ok s
  | src :: rest =>
    match s.tag_translate.lookup src.tag_id with
    | none => .error "Foreign key TagMap Tag violated"
    | some tag_id =>
      let src := { src with tag_id := tag_id }
      match src.location_id with
      | some location_id => do
        let (lm, dstLocs, new_location_id) ←
          insert_location s.location s.dst.locations location_id
        let s := { s with location := lm, dst := { s.dst with locations := dstLocs } }
        if location_index.contains (tag_id, new_location_id) then
          mergeTagMapsLoop location_index note_index s max_id rest
        else
          let next := insert_tag_map s.dst max_id { src with location_id := some new_location_id }
          mergeTagMapsLoop location_index note_index { s with dst := next.1 } next.2 rest
      | none =>
        match src.note_id with
        | some note_id =>
          match s.note_translate.lookup note_id with
          | none => .error "Foreign key TagMap Note violated"
          | some new_note_id =>
            if note_index.contains (tag_id, new_note_id) then
              mergeTagMapsLoop location_index note_index s max_id rest
            else
              let next := insert_tag_map s.dst max_id { src with note_id := some new_note_id }
              mergeTagMapsLoop location_index note_index { s with dst := next.1 } next.2 rest
        | none =>
          match src.playlist_item_id with
          | some _ => mergeTagMapsLoop location_index note_index s max_id rest
          | none => .error "Check constraint TagMap violated"

/-- The position-reassignment loop of `normalize_tag_map_positions`
(`tag_groups` is the per-tag counter map). -/
def normalizePositionsLoop (tag_groups : List (Nat × Nat)) : List TagMap → List TagMap
  | [] => []
  | t :: rest =>
    let position := (tag_groups.lookup t.tag_id).getD 0
    { t with position := position } ::
      normalizePositionsLoop ((t.tag_id, position + 1) :: tag_groups) rest

/-- `Merge::normalize_tag_map_positions`: stable sort by `position`, then
renumber 0,1,2,… within each `tag_id` in iteration order. -/
def normalize_tag_map_positions (s : MergeState) : MergeState :=
  let sorted := List.insertionSort (fun a b => a.position ≤ b.position) s.dst.tag_maps
  { s with dst := { s.dst with tag_maps := normalizePositionsLoop [] sorted } }

/-- `Merge::merge_tag_maps`. -/
def merge_tag_maps (s : MergeState) : Except String MergeState :=
  if s.src.tag_maps.isEmpty then .ok s
  else do
    let max_id := maxOr0 (s.dst.tag_maps.map (·.tag_map_id))
    let location_index := s.dst.tag_maps.filterMap
      (fun t => t.location_id.map (fun l => (t.tag_id, l)))
    let note_index := s.dst.tag_maps.filterMap
      (fun t => t.note_id.map (fun n => (t.tag_id, n)))
    let srcTagMaps := s.src.tag_maps
    let s ← mergeTagMapsLoop location_index note_index
      { s with src := { s.src with tag_maps := [] } } max_id srcTagMaps
    .ok (normalize_tag_map_positions s)

/-- `Merge::merge_input_field`. -/
def merge_input_field (s : MergeState) : Except String MergeState :=
  if s.src.input_fields.isEmpty then .ok s
  else .error "InputField merge not yet implemented"

/-- One pass of `merge_databases`: fold one further source database into the
running result. -/
def mergeOne (parseTs : String → Except String Int) (database result : Database)
    (messages : List Message) : Except String (Database × List Message) := do
  let s := Merge.new database result messages
  let s ← merge_bookmarks s
  let s ← merge_user_marks s
  let s ← merge_notes parseTs s
  let s ← merge_block_ranges s
  let s ← merge_tags s
  let s ← merge_tag_maps s
  let s ← merge_input_field s
  .ok (s.dst, s.messages)

/-- The fold of `merge_databases` over the remaining inputs. -/
def mergeFold (parseTs : String → Except String Int) (result : Database)
    (messages : List Message) : List Database → Except String (Database × List Message)
  | [] => .ok (result, messages)
  | db :: rest => do
    let (result, messages) ← mergeOne parseTs db result messages
    mergeFold parseTs result messages rest

/-- `merger.rs::merge_databases`: the first input is the destination; each
further input is folded in by one pass. -/
def merge_databases (parseTs : String → Except String Int) :
    List Database → Except String (Database × List Message)
  | [] => .error "At least 1 db"
  | first :: rest => mergeFold parseTs first [] rest

/-! ## Spec-side predicates for the GUID shape -/

/-- Spec-side: group acceptance as `from_str_radix` actually implements it —
either all hex digits, or a leading `'+'` followed by at least one hex digit. -/
def hexGroupOkRelaxed (cs : List Char) : Bool :=
  match cs with
  | '+' :: rest => !rest.isEmpty && rest.all isHexDigit
  | _ => !cs.isEmpty && cs.all isHexDigit

/-- Spec-side: the claim's strict 36-character hyphenated hex shape
(length 36, dashes at 8/13/18/23, every group character a hex digit). -/
def guidShapeStrict (s : String) : Bool :=
  let cs := s.data
  (cs.length == 36) && (cs.get? 8 == some '-') && (cs.get? 13 == some '-') &&
    (cs.get? 18 == some '-') && (cs.get? 23 == some '-') &&
    (cs.take 8).all isHexDigit && ((cs.drop 9).take 4).all isHexDigit &&
    ((cs.drop 14).take 4).all isHexDigit && ((cs.drop 19).take 4).all isHexDigit &&
    ((cs.drop 24).take 12).all isHexDigit

/-- Spec-side (amended): the strict shape relaxed group-wise to what Rust's
`from_str_radix` accepts (an optional leading `'+'`). -/
def guidShapeRelaxed (s : String) : Bool :=
  let cs := s.data
  (cs.length == 36) && (cs.get? 8 == some '-') && (cs.get? 13 == some '-') &&
    (cs.get? 18 == some '-') && (cs.get? 23 == some '-') &&
    hexGroupOkRelaxed (cs.take 8) && hexGroupOkRelaxed ((cs.drop 9).take 4) &&
    hexGroupOkRelaxed ((cs.drop 14).take 4) && hexGroupOkRelaxed ((cs.drop 19).take 4) &&
    hexGroupOkRelaxed ((cs.drop 24).take 12)

/-! ## Concrete fixtures -/

/-- `Database::default()`. -/
def defaultDatabase : Database :=
  { schema_sql := [], last_modified := "", locations := [], notes := [], input_fields := []
    tags := [], tag_maps := [], block_ranges := [], bookmarks := [], user_marks := [] }

/-- Modelled from the spec: stands in for the external `chrono`
`DateTime::parse_from_rfc3339` (container/decoding collaborators are out of
the core's scope), restricted to the two RFC3339 stamps of scenario S5; the
values are those stamps' Unix epoch seconds, so `<` on the results agrees
with chrono's instant order. -/
def demoParseTs (s : String) : Except String Int :=
  if s = "2020-01-01T00:00:00Z" then .ok 1577836800
  else if s = "2021-01-01T00:00:00Z" then .ok 1609459200
  else .error "BadTimestamp"

/-- A canonical GUID (the one from the repository's own unit test). -/
def s5Guid : String := "c88af989-da73-4745-bccc-8476f9950a3c"

/-- S5 destination note: content "old", last-modified 2020. -/
def s5OldNote : Note :=
  { note_id := 1, guid := s5Guid, user_mark_id := none, location_id := none
    title := some "t", content := some "old", last_modified := "2020-01-01T00:00:00Z"
    block_type := 0, block_identifier := none }

/-- S5 source note: content "new", last-modified 2021, same GUID. -/
def s5NewNote : Note :=
  { s5OldNote with note_id := 5, content := some "new"
                   last_modified := "2021-01-01T00:00:00Z" }

/-- The location used by the C3/C4 fixtures (mirrors the repo's test fixture). -/
def fixLoc : Location :=
  { location_id := 123, book_number := none, chapter_number := none, document_id := none
    track := none, issue_tag_number := 123, key_symbol := none, meps_language := 123
    type := 123, title := none }

/-- A UserMark fixture with a given id (all carry the same GUID). -/
def fixUserMark (id : Nat) : UserMark :=
  { user_mark_id := id, color_index := 1, location_id := 123, style_index := 0
    user_mark_guid := s5Guid, version := 1 }

/-- A BlockRange fixture. -/
def fixRange (id s e umid : Nat) : BlockRange :=
  { block_range_id := id, block_type := 1, identifier := 1
    start_token := some s, end_token := some e, user_mark_id := umid }

/-- C3 destination: one user mark with an existing range over tokens 1–5. -/
def c3DbDst : Database :=
  { defaultDatabase with
    locations := [fixLoc], user_marks := [fixUserMark 1], block_ranges := [fixRange 1 1 5 1] }

/-- C3 source: the same user mark (same GUID) with a range over tokens 2–6. -/
def c3DbSrc : Database :=
  { defaultDatabase with
    locations := [fixLoc], user_marks := [fixUserMark 9], block_ranges := [fixRange 7 2 6 9] }

/-- C4 source bookmark occupying slot 10 (outside the 0–9 slot range). -/
def c4SrcBookmark : Bookmark :=
  { bookmark_id := 123, location_id := 123, publication_location_id := 123, slot := 10
    title := "foo", snippet := some "bar", block_type := 1, block_identifier := some 18 }

/-- C4 destination: a location but no bookmarks at all. -/
def c4DbDst : Database := { defaultDatabase with locations := [fixLoc] }

/-- C4 source: the slot-10 bookmark. -/
def c4DbSrc : Database :=
  { defaultDatabase with locations := [fixLoc], bookmarks := [c4SrcBookmark] }

/-- A referenced location fixture for the cleaner counterexamples. -/
def cleanLoc (id : Nat) : Location :=
  { location_id := id, book_number := some 1, chapter_number := some 2, document_id := none
    track := none, issue_tag_number := 0, key_symbol := some "nwt", meps_language := 0
    type := 0, title := some "L" }

/-- A bookmark fixture pointing at location `loc`. -/
def cleanBookmark (id loc slot : Nat) : Bookmark :=
  { bookmark_id := id, location_id := loc, publication_location_id := loc, slot := slot
    title := "bm", snippet := none, block_type := 1, block_identifier := none }

/-- Cleaner fixture: two locations, both referenced by bookmarks (nothing is
droppable), listed in the order 1, 2. -/
def c6Db : Database :=
  { defaultDatabase with
    locations := [cleanLoc 1, cleanLoc 2]
    bookmarks := [cleanBookmark 1 1 0, cleanBookmark 2 2 1] }

/-- S4 location of the first input, title "A". -/
def c5LocTitleA : Location :=
  { location_id := 1, book_number := some 1, chapter_number := some 2, document_id := none
    track := none, issue_tag_number := 0, key_symbol := some "nwt", meps_language := 0
    type := 0, title := some "A" }

/-- S4 location of the second input: identical value tuple, title "B". -/
def c5LocTitleB : Location := { c5LocTitleA with location_id := 7, title := some "B" }

/-- S4 first input: location "A" plus one bookmark referencing it. -/
def c5Db1 : Database :=
  { defaultDatabase with locations := [c5LocTitleA], bookmarks := [cleanBookmark 1 1 0] }

/-- S4 second input: location "B" plus one bookmark referencing it. -/
def c5Db2 : Database :=
  { defaultDatabase with locations := [c5LocTitleB], bookmarks := [cleanBookmark 3 7 1] }

/-- Interner state for the C5 witness: source location 7 pending, and a
value-identical destination location with id 1 already indexed. -/
def c5WitnessLM : LocationMerge :=
  { location_translate := []
    src_location_index := [(7, c5LocTitleB)]
    dst_location_value_index := [(LocationValue.from c5LocTitleA, 1)]
    location_max_id := 1 }

/-- Merge state for the C1/C9 witnesses: destination holds the S5 "old"
note, source holds the S5 "new" note. -/
def c1State : MergeState :=
  Merge.new { defaultDatabase with notes := [s5NewNote] }
    { defaultDatabase with notes := [s5OldNote] } []

/-- Merge state for the C3 witness: the source block range's user mark 9 is
already translated to destination user mark 1. -/
def c3AmState : MergeState :=
  { Merge.new { defaultDatabase with block_ranges := [fixRange 7 2 6 9] } c3DbDst [] with
    user_mark_translate := [(9, 1)] }

/-- The S2 source bookmark: slot 8. -/
def s2SrcBookmark : Bookmark := { c4SrcBookmark with slot := 8 }

/-- Merge state for the C4 witness (scenario S2): destination already holds
a bookmark in slot 8 of the same publication location. -/
def s2DstDb : Database :=
  { defaultDatabase with
    locations := [fixLoc]
    bookmarks := [{ s2SrcBookmark with bookmark_id := 1 }] }

/-- The C4 witness merge state built on `s2DstDb`. -/
def s2State : MergeState :=
  Merge.new { defaultDatabase with locations := [fixLoc] } s2DstDb []

/-! ## Theorems -/

/-- **C2** (code_bug evidence).  Scenario S5: same GUID in both inputs,
destination content "old" at 2020, source content "new" at 2021.  The merge
does update the note's content and last-modified to the source values, but
emits NO `NoteUpdate` message: `merge_notes` overwrites the destination note
first and only then snapshots `before` from it, so `before = after` in the
source-newer branch and the inequality guard never fires — contradicting the
spec's "exactly one NoteUpdate with before.content=old/after.content=new". -/
theorem merge_notes_s5_emits_no_message :
    (merge_databases demoParseTs
        [{ defaultDatabase with notes := [s5OldNote] },
         { defaultDatabase with notes := [s5NewNote] }]).map
      (fun r => (r.1.notes.map (fun n => (n.content, n.last_modified)), r.2)) =
    Except.ok ([(some "new", "2021-01-01T00:00:00Z")], []) := by decide

/-- **C3** (counterexample).  A merge of two well-formed Models whose output
contains two distinct BlockRanges referencing the same UserMark that satisfy
the overlap predicate: the overlap check only inspects ranges added during
the current pass, never the ranges already present in the destination. -/
theorem merged_model_contains_overlapping_ranges :
    (merge_databases demoParseTs [c3DbDst, c3DbSrc]).map
      (fun r => r.1.block_ranges.map (fun b => (b.user_mark_id, b.start_token, b.end_token))) =
      Except.ok [(1, some 1, some 5), (1, some 2, some 6)] ∧
    block_ranges_overlap (fixRange 1 1 5 1) (fixRange 2 2 6 1) = true := by decide

/-- **C4** (counterexample).  A source Bookmark with slot 10 merged into a
destination with NO bookmarks: its slot (10) is not among the destination
slots for its publication location (the set is empty), so the claim says the
slot is kept; but the code appends the sentinel 10 to the collected slot list
before the membership test, so slot 10 always counts as colliding and the
bookmark is re-assigned slot 0. -/
theorem bookmark_slot_ten_is_reassigned :
    (merge_databases demoParseTs [c4DbDst, c4DbSrc]).map
      (fun r => (r.1.bookmarks.map (·.slot), r.2.length)) = Except.ok ([0], 0) ∧
    c4DbDst.bookmarks = [] ∧ c4SrcBookmark.slot = 10 := by decide

/-- **C6** (counterexample).  A Model with two Locations, both referenced by
Bookmarks: `clean` drops neither of them (removed count 0) yet returns them
in REVERSED order, refuting "the remaining Locations appear in the output in
the same relative order as in the input". -/
theorem clean_reverses_location_order :
    (clean c6Db).1.locations = [cleanLoc 2, cleanLoc 1] ∧
    c6Db.locations = [cleanLoc 1, cleanLoc 2] ∧
    cleanLoc 1 ≠ cleanLoc 2 ∧ (clean c6Db).2 = 0 := by decide

/-- **C7** (counterexample).  On the same two-location Model, the second
`clean` also removes 0 rows, but `clean (clean m)` differs from `clean m` as
a Model: each pass reverses the surviving Location (and BlockRange) lists, so
`clean` is not idempotent on Models. -/
theorem clean_squared_differs_from_clean :
    (clean (clean c6Db).1).1 ≠ (clean c6Db).1 ∧ (clean (clean c6Db).1).2 = 0 := by decide

/-- **C8** (counterexample).  `'+'` is not a hexadecimal digit, yet
`parse_guid` accepts a 36-character input whose first group starts with
`'+'`: Rust's `from_str_radix` tolerates an optional leading plus sign,
refuting "fails ... [on] any character in the five groups that is not a
hexadecimal digit". -/
theorem parse_guid_accepts_plus_sign :
    parse_guid "+1234567-0000-0000-0000-000000000000" = Except.ok (0x1234567 * 2 ^ 96) ∧
    isHexDigit '+' = false ∧
    "+1234567-0000-0000-0000-000000000000".length = 36 := by decide

/-- **C5** (confirmed).  (1) Whenever a source Location being interned has a
value-identity tuple already present in the destination value index, the
interner returns the existing destination row-id and leaves the destination
Location list completely unchanged (so the destination title survives even
if the source title differs).  (2) Scenario S4: merging two Models that each
hold one Location with identical value tuples but titles "A"/"B", each
referenced by one Bookmark, yields exactly one output Location — the first
input's, title "A" — with both Bookmarks referencing it, and no messages. -/
theorem insert_location_existing_value_wins :
    (∀ (lm : LocationMerge) (dst : List Location) (location_id : Nat)
        (location : Location) (equivalent : Nat),
      lm.location_translate.lookup location_id = none →
      lm.src_location_index.lookup location_id = some location →
      lm.dst_location_value_index.lookup (LocationValue.from location) = some equivalent →
      ∃ lm', insert_location lm dst location_id = Except.ok (lm', dst, equivalent)) ∧
    (merge_databases demoParseTs [c5Db1, c5Db2]).map
      (fun r => (r.1.locations, r.1.bookmarks.map (·.location_id), r.2)) =
      Except.ok ([c5LocTitleA], [1, 1], []) := by
  constructor
  · intro lm dst location_id location equivalent h1 h2 h3
    exact ⟨_, by simp only [insert_location, h1, h2, h3]; rfl⟩
  · decide

/-- Witness for C5: the interner state `c5WitnessLM` holds the pending source
Location 7 (title "B") while the destination index maps the same value tuple
to id 1; interning returns 1 and the (empty) destination list unchanged. -/
theorem insert_location_existing_value_wins_witness :
    ∃ lm', insert_location c5WitnessLM [] 7 = Except.ok (lm', [], 1) :=
  insert_location_existing_value_wins.1 c5WitnessLM [] 7 c5LocTitleB 1 rfl rfl rfl

/-- `retainRanges` only keeps rows of its input, preserving their order. -/
theorem retainRanges_sublist (ids : List Nat) :
    ∀ (l : List BlockRange) (found : List Nat), List.Sublist (retainRanges ids l found) l := by
  intro l
  induction l with
  | nil => intro found; exact List.Sublist.refl _
  | cons r rest ih =>
    intro found
    simp only [retainRanges]
    split
    · split
      · exact (ih found).cons r
      · exact (ih _).cons₂ r
    · exact (ih found).cons r

/-- Every row kept by `retainRanges` has a known user-mark id that was not
yet in the `found` set. -/
theorem retainRanges_mem (ids : List Nat) :
    ∀ (l : List BlockRange) (found : List Nat) (r : BlockRange),
      r ∈ retainRanges ids l found →
      r.user_mark_id ∈ ids ∧ r.user_mark_id ∉ found := by
  intro l
  induction l with
  | nil => intro found r h; simp [retainRanges] at h
  | cons x rest ih =>
    intro found r h
    simp only [retainRanges] at h
    by_cases h1 : x.user_mark_id ∈ ids
    · have hb1 : (ids.contains x.user_mark_id = true) := by simp [h1]
      rw [if_pos hb1] at h
      by_cases h2 : x.user_mark_id ∈ found
      · have hb2 : (found.contains x.user_mark_id = true) := by simp [h2]
        rw [if_pos hb2] at h
        exact ih found r h
      · have hb2 : ¬ (found.contains x.user_mark_id = true) := by simp [h2]
        rw [if_neg hb2] at h
        rcases List.mem_cons.mp h with rfl | h
        · exact ⟨h1, h2⟩
        · have hr := ih _ r h
          refine ⟨hr.1, fun hmem => hr.2 (List.mem_cons_of_mem _ hmem)⟩
    · have hb1 : ¬ (ids.contains x.user_mark_id = true) := by simp [h1]
      rw [if_neg hb1] at h
      exact ih found r h

/-- The user-mark ids of the rows kept by `retainRanges` are pairwise
distinct. -/
theorem retainRanges_nodup (ids : List Nat) :
    ∀ (l : List BlockRange) (found : List Nat),
      ((retainRanges ids l found).map (·.user_mark_id)).Nodup := by
  intro l
  induction l with
  | nil => intro found; simp [retainRanges]
  | cons x rest ih =>
    intro found
    simp only [retainRanges]
    by_cases h1 : x.user_mark_id ∈ ids
    · have hb1 : (ids.contains x.user_mark_id = true) := by simp [h1]
      rw [if_pos hb1]
      by_cases h2 : x.user_mark_id ∈ found
      · have hb2 : (found.contains x.user_mark_id = true) := by simp [h2]
        rw [if_pos hb2]
        exact ih found
      · have hb2 : ¬ (found.contains x.user_mark_id = true) := by simp [h2]
        rw [if_neg hb2]
        simp only [List.map_cons, List.nodup_cons]
        refine ⟨?_, ih _⟩
        intro hmem
        rcases List.mem_map.mp hmem with ⟨r, hr, hid⟩
        exact (retainRanges_mem ids rest _ r hr).2 (by simp [hid])
    · have hb1 : ¬ (ids.contains x.user_mark_id = true) := by simp [h1]
      rw [if_neg hb1]
      exact ih found

/-- If every row's user-mark id is known, the ids are pairwise distinct and
none is in `found`, then `retainRanges` keeps the whole list. -/
theorem retainRanges_all_kept (ids : List Nat) :
    ∀ (l : List BlockRange) (found : List Nat),
      (∀ r ∈ l, r.user_mark_id ∈ ids) →
      ((l.map (·.user_mark_id)).Nodup) →
      (∀ r ∈ l, r.user_mark_id ∉ found) →
      retainRanges ids l found = l := by
  intro l
  induction l with
  | nil => intro found _ _ _; rfl
  | cons x rest ih =>
    intro found hids hnodup hfound
    have hx : x.user_mark_id ∈ ids := hids x (List.mem_cons_self x rest)
    have hxf : x.user_mark_id ∉ found := hfound x (List.mem_cons_self x rest)
    have hb1 : (ids.contains x.user_mark_id = true) := by simp [hx]
    have hb2 : ¬ (found.contains x.user_mark_id = true) := by simp [hxf]
    simp only [retainRanges]
    rw [if_pos hb1, if_neg hb2]
    rw [List.map_cons] at hnodup
    have hnd := List.nodup_cons.mp hnodup
    congr 1
    apply ih
    · exact fun r hr => hids r (List.mem_cons_of_mem x hr)
    · exact hnd.2
    · intro r hr hmem
      rcases List.mem_cons.mp hmem with heq | hmem2
      · exact hnd.1 (heq ▸ List.mem_map_of_mem (·.user_mark_id) hr)
      · exact hfound r (List.mem_cons_of_mem x hr) hmem2

/-- `clean_block_ranges` in closed form: only the `block_ranges` field and
the counter change (the `isEmpty` early return coincides with the general
branch because retaining from an empty list keeps nothing). -/
theorem clean_block_ranges_eq (db : Database) (r : Nat) :
    clean_block_ranges db r =
      ({ db with block_ranges :=
          retainRanges (db.user_marks.map (·.user_mark_id)) db.block_ranges.reverse [] },
        r + (db.block_ranges.length -
          (retainRanges (db.user_marks.map (·.user_mark_id)) db.block_ranges.reverse []).length)) := by
  by_cases h : db.block_ranges.isEmpty
  · have he : db.block_ranges = [] := List.isEmpty_iff.mp h
    obtain ⟨sch, lm, locs, notes, inf, tags, tms, brs, bms, ums⟩ := db
    simp only at he
    subst he
    simp [clean_block_ranges, retainRanges]
  · simp [clean_block_ranges, h]

/-- Membership in the fold collecting bookmark location references. -/
theorem mem_bookmark_fold (bs : List Bookmark) (x : Nat) :
    x ∈ bs.foldr (fun b acc => b.location_id :: b.publication_location_id :: acc) [] ↔
      ∃ b ∈ bs, b.location_id = x ∨ b.publication_location_id = x := by
  induction bs with
  | nil => simp
  | cons b rest ih =>
    simp only [List.foldr_cons, List.mem_cons, ih, List.mem_cons]
    constructor
    · rintro (rfl | rfl | ⟨b', hb', hor⟩)
      · exact ⟨b, Or.inl rfl, Or.inl rfl⟩
      · exact ⟨b, Or.inl rfl, Or.inr rfl⟩
      · exact ⟨b', Or.inr hb', hor⟩
    · rintro ⟨b', hb' | hb', hor⟩
      · subst hb'
        rcases hor with rfl | rfl
        · exact Or.inl rfl
        · exact Or.inr (Or.inl rfl)
      · exact Or.inr (Or.inr ⟨b', hb', hor⟩)

/-- Characterization of `location_ids_in_use` membership. -/
theorem mem_location_ids_in_use (db : Database) (x : Nat) :
    x ∈ location_ids_in_use db ↔
      ((∃ b ∈ db.bookmarks, b.location_id = x ∨ b.publication_location_id = x) ∨
       (∃ n ∈ db.notes, n.location_id = some x) ∨
       (∃ u ∈ db.user_marks, u.location_id = x) ∨
       (∃ t ∈ db.tag_maps, t.location_id = some x)) := by
  unfold location_ids_in_use
  simp only [List.mem_append, List.mem_filterMap, List.mem_map, mem_bookmark_fold, or_assoc]

/-- `clean` in closed form: the two pruned tables and the summed counter. -/
theorem clean_eq (m : Database) :
    clean m =
      ({ m with
          block_ranges :=
            retainRanges (m.user_marks.map (·.user_mark_id)) m.block_ranges.reverse []
          locations := m.locations.reverse.filter
            (fun l => (location_ids_in_use m).contains l.location_id) },
        (m.block_ranges.length -
          (retainRanges (m.user_marks.map (·.user_mark_id)) m.block_ranges.reverse []).length)
        + (m.locations.length - (m.locations.reverse.filter
            (fun l => (location_ids_in_use m).contains l.location_id)).length)) := by
  show clean_locations (clean_block_ranges m 0).1 (clean_block_ranges m 0).2 = _
  rw [clean_block_ranges_eq, Nat.zero_add]
  rfl

/-- **C10** (confirmed).  `clean` only ever removes rows from the BlockRange
and Location tables: every other sequence, the schema text and the
last-modified stamp are returned exactly as given, and the surviving
BlockRange/Location rows are a sublist (same rows, same field values, same
relative order) of the reversal of the corresponding input table — so no row
is ever added or modified anywhere. -/
theorem clean_only_removes_block_ranges_and_locations (m : Database) :
    (clean m).1.schema_sql = m.schema_sql ∧
    (clean m).1.last_modified = m.last_modified ∧
    (clean m).1.notes = m.notes ∧
    (clean m).1.input_fields = m.input_fields ∧
    (clean m).1.tags = m.tags ∧
    (clean m).1.tag_maps = m.tag_maps ∧
    (clean m).1.bookmarks = m.bookmarks ∧
    (clean m).1.user_marks = m.user_marks ∧
    List.Sublist (clean m).1.block_ranges m.block_ranges.reverse ∧
    List.Sublist (clean m).1.locations m.locations.reverse := by
  rw [clean_eq]
  exact ⟨rfl, rfl, rfl, rfl, rfl, rfl, rfl, rfl,
    retainRanges_sublist _ _ _, List.filter_sublist _⟩

/-- **C6 (amended)**.  `clean` drops exactly those Locations whose row-id is
referenced by no Bookmark (either reference), no Note, no UserMark and no
TagMap — but the survivors appear in REVERSE of their input order (the code
iterates the vector with `.rev()` before filtering), not in the same
relative order. -/
theorem clean_drops_exactly_unreferenced_locations (m : Database) :
    (clean m).1.locations =
      (m.locations.filter
        (fun l => (location_ids_in_use m).contains l.location_id)).reverse ∧
    ∀ x : Nat, (location_ids_in_use m).contains x = true ↔
      ((∃ b ∈ m.bookmarks, b.location_id = x ∨ b.publication_location_id = x) ∨
       (∃ n ∈ m.notes, n.location_id = some x) ∨
       (∃ u ∈ m.user_marks, u.location_id = x) ∨
       (∃ t ∈ m.tag_maps, t.location_id = some x)) := by
  constructor
  · rw [clean_eq]
    exact List.filter_reverse _ _
  · intro x
    rw [show ((location_ids_in_use m).contains x = true) ↔ x ∈ location_ids_in_use m
      from by simp]
    exact mem_location_ids_in_use m x

/-- A Model whose BlockRanges all reference known UserMarks with pairwise
distinct ids and whose Locations are all in use loses nothing to `clean` —
but both pruned tables come back reversed. -/
theorem clean_of_clean_shape (db : Database)
    (h1 : ∀ r ∈ db.block_ranges, r.user_mark_id ∈ db.user_marks.map (·.user_mark_id))
    (h2 : (db.block_ranges.map (·.user_mark_id)).Nodup)
    (h3 : ∀ l ∈ db.locations, (location_ids_in_use db).contains l.location_id = true) :
    clean db =
      ({ db with block_ranges := db.block_ranges.reverse
                 locations := db.locations.reverse }, 0) := by
  rw [clean_eq]
  have hbr : retainRanges (db.user_marks.map (·.user_mark_id)) db.block_ranges.reverse []
      = db.block_ranges.reverse := by
    apply retainRanges_all_kept
    · intro r hr
      exact h1 r (List.mem_reverse.mp hr)
    · rw [List.map_reverse]
      exact List.nodup_reverse.mpr h2
    · intro r _ hmem
      simp at hmem
  have hloc : db.locations.reverse.filter
      (fun l => (location_ids_in_use db).contains l.location_id) = db.locations.reverse := by
    apply List.filter_eq_self.mpr
    intro l hl
    exact h3 l (List.mem_reverse.mp hl)
  rw [hbr, hloc]
  simp [Nat.sub_self]

/-- **C7 (amended)**.  The second `clean` removes nothing — its removed-row
count is 0 — but `clean (clean m)` is NOT equal to `clean m` as a Model in
general: each pass reverses the surviving BlockRange and Location sequences,
so the second pass returns `clean m` with those two tables reversed (and
consequently `clean` is idempotent only up to that reversal, i.e.
`clean∘clean∘clean = clean`, not `clean∘clean = clean`). -/
theorem clean_clean_returns_zero_and_reverses (m : Database) :
    clean (clean m).1 =
      ({ (clean m).1 with
          block_ranges := (clean m).1.block_ranges.reverse
          locations := (clean m).1.locations.reverse }, 0) := by
  have h := clean_eq m
  have hbr : (clean m).1.block_ranges =
      retainRanges (m.user_marks.map (·.user_mark_id)) m.block_ranges.reverse [] := by rw [h]
  have hum : (clean m).1.user_marks = m.user_marks := by rw [h]
  have hloc : (clean m).1.locations = m.locations.reverse.filter
      (fun l => (location_ids_in_use m).contains l.location_id) := by rw [h]
  have huse : location_ids_in_use (clean m).1 = location_ids_in_use m := by
    rw [h]; rfl
  apply clean_of_clean_shape
  · intro r hr
    rw [hbr] at hr
    rw [hum]
    exact (retainRanges_mem _ _ _ r hr).1
  · rw [hbr]
    exact retainRanges_nodup _ _ _
  · intro l hl
    rw [hloc] at hl
    rw [huse]
    exact (List.mem_filter.mp hl).2

/-- Folding hex digits from an arbitrary accumulator. -/
theorem hexNat_foldl (cs : List Char) :
    ∀ z : Nat, cs.foldl (fun acc c => acc * 16 + hexVal c) z
      = z * 16 ^ cs.length + hexNat cs := by
  induction cs with
  | nil => intro z; simp [hexNat]
  | cons c rest ih =>
    intro z
    have hc : hexNat (c :: rest) = rest.foldl (fun acc c => acc * 16 + hexVal c) (hexVal c) := by
      simp [hexNat]
    simp only [List.foldl_cons, List.length_cons]
    rw [ih (z * 16 + hexVal c), hc, ih (hexVal c)]
    ring

/-- Value of a concatenation of hex digit strings. -/
theorem hexNat_append (a b : List Char) :
    hexNat (a ++ b) = hexNat a * 16 ^ b.length + hexNat b := by
  have : hexNat (a ++ b) = b.foldl (fun acc c => acc * 16 + hexVal c) (hexNat a) := by
    simp [hexNat, List.foldl_append]
  rw [this, hexNat_foldl]

/-- A hex digit's value is below 16. -/
theorem hexVal_lt_16 (c : Char) (h : isHexDigit c = true) : hexVal c < 16 := by
  simp only [isHexDigit, Bool.or_eq_true, Bool.and_eq_true, decide_eq_true_eq] at h
  unfold hexVal
  split
  · rename_i hcond
    simp only [Bool.and_eq_true, decide_eq_true_eq] at hcond
    have h1 : 48 ≤ c.toNat := hcond.1
    have h2 : c.toNat ≤ 57 := hcond.2
    have e0 : '0'.toNat = 48 := rfl
    omega
  · split
    · rename_i hcond
      simp only [Bool.and_eq_true, decide_eq_true_eq] at hcond
      have h1 : 97 ≤ c.toNat := hcond.1
      have h2 : c.toNat ≤ 102 := hcond.2
      have e0 : 'a'.toNat = 97 := rfl
      omega
    · rename_i hc1 hc2
      simp only [Bool.and_eq_true, decide_eq_true_eq] at hc1 hc2
      rcases h with (⟨h1, h2⟩ | ⟨h1, h2⟩) | ⟨h1, h2⟩
      · exact absurd ⟨h1, h2⟩ hc1
      · exact absurd ⟨h1, h2⟩ hc2
      · have h1' : 65 ≤ c.toNat := h1
        have h2' : c.toNat ≤ 70 := h2
        have e0 : 'A'.toNat = 65 := rfl
        omega

/-- The value of an all-hex string is below `16 ^ length`. -/
theorem hexNat_lt (cs : List Char) (h : cs.all isHexDigit = true) :
    hexNat cs < 16 ^ cs.length := by
  induction cs with
  | nil => simp [hexNat]
  | cons c rest ih =>
    simp only [List.all_cons, Bool.and_eq_true] at h
    have hc : hexNat (c :: rest) = hexVal c * 16 ^ rest.length + hexNat rest := by
      have : hexNat (c :: rest) = rest.foldl (fun acc c => acc * 16 + hexVal c) (hexVal c) := by
        simp [hexNat]
      rw [this, hexNat_foldl]
    rw [hc]
    have h1 := hexVal_lt_16 c h.1
    have h2 := ih h.2
    have hpow : (16:Nat) ^ (c :: rest).length = 16 * 16 ^ rest.length := by
      simp [List.length_cons, pow_succ]
      ring
    rw [hpow]
    nlinarith

/-- Bitwise-or distributes over the low bit. -/
theorem two_mul_lor_low (a b c : Nat) (hc : c < 2) :
    (2 * a) ||| (2 * b + c) = 2 * (a ||| b) + c := by
  interval_cases c
  · have h := Nat.lor_bit false a false b
    simpa [Nat.bit] using h
  · have h := Nat.lor_bit false a true b
    simpa [Nat.bit] using h

/-- Or-ing a multiple of `2 ^ k` with a value below `2 ^ k` is addition. -/
theorem mul_pow_lor_eq_add : ∀ (k x y : Nat), y < 2 ^ k → (x * 2 ^ k) ||| y = x * 2 ^ k + y := by
  intro k
  induction k with
  | zero =>
    intro x y hy
    interval_cases y
    simp
  | succ k ih =>
    intro x y hy
    have hy2 : y % 2 < 2 := Nat.mod_lt _ (by norm_num)
    have hhalf : y / 2 < 2 ^ k := by
      have hp : 2 ^ (k + 1) = 2 * 2 ^ k := by ring
      omega
    have hx : x * 2 ^ (k + 1) = 2 * (x * 2 ^ k) := by ring
    have hdec : 2 * (y / 2) + y % 2 = y := Nat.div_add_mod y 2 ▸ (by omega)
    calc (x * 2 ^ (k + 1)) ||| y
        = (2 * (x * 2 ^ k)) ||| (2 * (y / 2) + y % 2) := by rw [hx, hdec]
      _ = 2 * ((x * 2 ^ k) ||| (y / 2)) + y % 2 := two_mul_lor_low _ _ _ hy2
      _ = 2 * (x * 2 ^ k + y / 2) + y % 2 := by rw [ih x (y / 2) hhalf]
      _ = x * 2 ^ (k + 1) + (2 * (y / 2) + y % 2) := by ring
      _ = x * 2 ^ (k + 1) + y := by rw [hdec]

/-- The five OR-ed shifted GUID groups sum to the positional value. -/
theorem guid_groups_value (low mid hi seq node : Nat)
    (hmid : mid < 2 ^ 16) (hhi : hi < 2 ^ 16)
    (hseq : seq < 2 ^ 16) (hnode : node < 2 ^ 48) :
    node ||| (seq <<< 48) ||| (hi <<< 64) ||| (mid <<< 80) ||| (low <<< 96) =
      low * 2 ^ 96 + mid * 2 ^ 80 + hi * 2 ^ 64 + seq * 2 ^ 48 + node := by
  rw [Nat.shiftLeft_eq, Nat.shiftLeft_eq, Nat.shiftLeft_eq, Nat.shiftLeft_eq]
  have h1 : seq * 2 ^ 48 + node < 2 ^ 64 := by
    calc seq * 2 ^ 48 + node < seq * 2 ^ 48 + 2 ^ 48 := by omega
      _ = (seq + 1) * 2 ^ 48 := by ring
      _ ≤ 2 ^ 16 * 2 ^ 48 := Nat.mul_le_mul_right _ hseq
      _ = 2 ^ 64 := by norm_num
  have h2 : hi * 2 ^ 64 + (seq * 2 ^ 48 + node) < 2 ^ 80 := by
    calc hi * 2 ^ 64 + (seq * 2 ^ 48 + node) < hi * 2 ^ 64 + 2 ^ 64 := by omega
      _ = (hi + 1) * 2 ^ 64 := by ring
      _ ≤ 2 ^ 16 * 2 ^ 64 := Nat.mul_le_mul_right _ hhi
      _ = 2 ^ 80 := by norm_num
  have h3 : mid * 2 ^ 80 + (hi * 2 ^ 64 + (seq * 2 ^ 48 + node)) < 2 ^ 96 := by
    calc mid * 2 ^ 80 + (hi * 2 ^ 64 + (seq * 2 ^ 48 + node))
        < mid * 2 ^ 80 + 2 ^ 80 := by omega
      _ = (mid + 1) * 2 ^ 80 := by ring
      _ ≤ 2 ^ 16 * 2 ^ 80 := Nat.mul_le_mul_right _ hmid
      _ = 2 ^ 96 := by norm_num
  rw [Nat.lor_comm node, mul_pow_lor_eq_add 48 seq node hnode]
  rw [Nat.lor_comm _ (hi * 2 ^ 64), mul_pow_lor_eq_add 64 hi _ h1]
  rw [Nat.lor_comm _ (mid * 2 ^ 80), mul_pow_lor_eq_add 80 mid _ h2]
  rw [Nat.lor_comm _ (low * 2 ^ 96), mul_pow_lor_eq_add 96 low _ h3]
  ring

/-- On a nonempty all-hex-digit group small enough for its width,
`from_str_radix16` succeeds with the group's positional hex value. -/
theorem from_str_radix16_strict (w : Nat) (cs : List Char) (hne : cs ≠ [])
    (hhex : cs.all isHexDigit = true) (hw : 4 * cs.length ≤ w) :
    from_str_radix16 w cs = Except.ok (hexNat cs) := by
  match cs, hne with
  | c :: rest, _ =>
    have hall := hhex
    simp only [List.all_cons, Bool.and_eq_true] at hall
    have hcplus : ¬ (c = '+') := by
      intro hc
      subst hc
      simp [isHexDigit] at hall
    have hbound : hexNat (c :: rest) < 2 ^ w := by
      calc hexNat (c :: rest) < 16 ^ (c :: rest).length := hexNat_lt _ hhex
        _ = 2 ^ (4 * (c :: rest).length) := by
            rw [pow_mul]; norm_num
        _ ≤ 2 ^ w := Nat.pow_le_pow_right (by norm_num) hw
    rw [from_str_radix16]
    rw [if_neg hcplus]
    rw [if_neg (by simp : ¬ ((c :: rest).isEmpty = true))]
    rw [if_pos hhex, if_pos hbound]

/-- `from_str_radix16` succeeds exactly on groups made of an optional
leading `'+'` followed by at least one hex digit, provided the group is
short enough for its width (true of all five GUID groups). -/
theorem from_str_radix16_ok_iff (w : Nat) (cs : List Char) (hw : 4 * cs.length ≤ w) :
    (∃ n, from_str_radix16 w cs = Except.ok n) ↔ hexGroupOkRelaxed cs = true := by
  match cs with
  | [] => simp [from_str_radix16, hexGroupOkRelaxed]
  | c :: rest =>
    by_cases hc : c = '+'
    · subst hc
      rw [from_str_radix16]
      rw [if_pos rfl]
      rw [show hexGroupOkRelaxed ('+' :: rest) = (!rest.isEmpty && rest.all isHexDigit)
        from rfl]
      by_cases hemp : rest.isEmpty = true
      · rw [if_pos hemp]
        simp [hemp]
      · rw [if_neg hemp]
        by_cases hhex : rest.all isHexDigit = true
        · have hbound : hexNat rest < 2 ^ w := by
            calc hexNat rest < 16 ^ rest.length := hexNat_lt _ hhex
              _ = 2 ^ (4 * rest.length) := by rw [pow_mul]; norm_num
              _ ≤ 2 ^ w := Nat.pow_le_pow_right (by norm_num)
                  (by simp at hw ⊢; omega)
          rw [if_pos hhex, if_pos hbound]
          simp [hemp, hhex]
        · rw [if_neg hhex]
          simp [hemp, hhex]
    · rw [from_str_radix16]
      rw [if_neg hc]
      rw [if_neg (by simp : ¬ ((c :: rest).isEmpty = true))]
      have hshape : hexGroupOkRelaxed (c :: rest) = ((c :: rest).all isHexDigit) := by
        rw [hexGroupOkRelaxed]
        · simp
        · intro r hr
          injection hr with h1 _
          exact hc h1
      by_cases hhex : (c :: rest).all isHexDigit = true
      · have hbound : hexNat (c :: rest) < 2 ^ w := by
          calc hexNat (c :: rest) < 16 ^ (c :: rest).length := hexNat_lt _ hhex
            _ = 2 ^ (4 * (c :: rest).length) := by rw [pow_mul]; norm_num
            _ ≤ 2 ^ w := Nat.pow_le_pow_right (by norm_num) hw
        rw [if_pos hhex, if_pos hbound, hshape, hhex]
        simp
      · rw [if_neg hhex, hshape]
        simp [hhex]

/-- Reducing an `Except` bind against a known `ok`. -/
theorem except_ok_bind {α β : Type} (a : α) (f : α → Except String β) :
    (Except.ok a : Except String α) >>= f = f a := rfl

/-- Reducing an `Except` bind against a known `error`. -/
theorem except_error_bind {α β : Type} (e : String) (f : α → Except String β) :
    (Except.error e : Except String α) >>= f = Except.error e := rfl

/-- The group must have failed if `from_str_radix16` returned an error. -/
theorem hexGroup_false_of_error (w : Nat) (cs : List Char) (hw : 4 * cs.length ≤ w)
    (err : String) (he : from_str_radix16 w cs = Except.error err) :
    hexGroupOkRelaxed cs = false := by
  cases hb : hexGroupOkRelaxed cs
  · rfl
  · obtain ⟨n, hn⟩ := (from_str_radix16_ok_iff w cs hw).mpr hb
    rw [he] at hn
    cases hn

/-- `parse_guid` on an input of the right length with all four dashes in
place is exactly the five-group parse chain. -/
theorem parse_guid_unfold (s : String) (hlen : s.data.length = 36)
    (h8 : s.data.get? 8 = some '-') (h13 : s.data.get? 13 = some '-')
    (h18 : s.data.get? 18 = some '-') (h23 : s.data.get? 23 = some '-') :
    parse_guid s = (do
      let low ← from_str_radix16 32 (s.data.take 8)
      let mid ← from_str_radix16 16 ((s.data.drop 9).take 4)
      let hi ← from_str_radix16 16 ((s.data.drop 14).take 4)
      let seq ← from_str_radix16 16 ((s.data.drop 19).take 4)
      let node ← from_str_radix16 128 ((s.data.drop 24).take 12)
      pure (node ||| (seq <<< 48) ||| (hi <<< 64) ||| (mid <<< 80) ||| (low <<< 96))) := by
  have e8 : s.data[8]? = some '-' := by rw [← List.get?_eq_getElem?]; exact h8
  have e13 : s.data[13]? = some '-' := by rw [← List.get?_eq_getElem?]; exact h13
  have e18 : s.data[18]? = some '-' := by rw [← List.get?_eq_getElem?]; exact h18
  have e23 : s.data[23]? = some '-' := by rw [← List.get?_eq_getElem?]; exact h23
  simp only [parse_guid]
  rw [if_neg (by simp [hlen]), if_neg (by simp [e8, e13, e18, e23])]

/-- **C8 (amended)**.  `parse_guid` succeeds exactly on 36-byte inputs with
dashes at positions 8/13/18/23 whose five groups each satisfy Rust's
`from_str_radix` acceptance — one or more hex digits, optionally preceded by
a single `'+'` (so a leading `'+'` is tolerated even though it is not a hex
digit); every length, separator or group violation of that relaxed shape
fails.  On inputs in the claim's strict all-hex shape it returns the 128-bit
integer whose high-to-low bytes are the concatenation of the five groups. -/
theorem parse_guid_characterization (s : String) :
    ((∃ n, parse_guid s = Except.ok n) ↔ guidShapeRelaxed s = true) ∧
    (guidShapeStrict s = true →
      parse_guid s = Except.ok (hexNat (s.data.take 8 ++ (s.data.drop 9).take 4 ++
        (s.data.drop 14).take 4 ++ (s.data.drop 19).take 4 ++ (s.data.drop 24).take 12))) := by
  have hw1 : 4 * (s.data.take 8).length ≤ 32 := by
    simp only [List.length_take]
    omega
  have hw2 : 4 * ((s.data.drop 9).take 4).length ≤ 16 := by
    simp only [List.length_take]
    omega
  have hw3 : 4 * ((s.data.drop 14).take 4).length ≤ 16 := by
    simp only [List.length_take]
    omega
  have hw4 : 4 * ((s.data.drop 19).take 4).length ≤ 16 := by
    simp only [List.length_take]
    omega
  have hw5 : 4 * ((s.data.drop 24).take 12).length ≤ 128 := by
    simp only [List.length_take]
    omega
  constructor
  · constructor
    · rintro ⟨n, hn⟩
      by_cases hlen : s.data.length = 36
      · by_cases h8 : s.data.get? 8 = some '-'
        · by_cases h13 : s.data.get? 13 = some '-'
          · by_cases h18 : s.data.get? 18 = some '-'
            · by_cases h23 : s.data.get? 23 = some '-'
              · rw [parse_guid_unfold s hlen h8 h13 h18 h23] at hn
                cases e1 : from_str_radix16 32 (s.data.take 8) with
                | error err => rw [e1, except_error_bind] at hn; cases hn
                | ok low =>
                rw [e1, except_ok_bind] at hn
                cases e2 : from_str_radix16 16 ((s.data.drop 9).take 4) with
                | error err => rw [e2, except_error_bind] at hn; cases hn
                | ok mid =>
                rw [e2, except_ok_bind] at hn
                cases e3 : from_str_radix16 16 ((s.data.drop 14).take 4) with
                | error err => rw [e3, except_error_bind] at hn; cases hn
                | ok hi =>
                rw [e3, except_ok_bind] at hn
                cases e4 : from_str_radix16 16 ((s.data.drop 19).take 4) with
                | error err => rw [e4, except_error_bind] at hn; cases hn
                | ok seq =>
                rw [e4, except_ok_bind] at hn
                cases e5 : from_str_radix16 128 ((s.data.drop 24).take 12) with
                | error err => rw [e5, except_error_bind] at hn; cases hn
                | ok node =>
                have ho1 := (from_str_radix16_ok_iff 32 _ hw1).mp ⟨low, e1⟩
                have ho2 := (from_str_radix16_ok_iff 16 _ hw2).mp ⟨mid, e2⟩
                have ho3 := (from_str_radix16_ok_iff 16 _ hw3).mp ⟨hi, e3⟩
                have ho4 := (from_str_radix16_ok_iff 16 _ hw4).mp ⟨seq, e4⟩
                have ho5 := (from_str_radix16_ok_iff 128 _ hw5).mp ⟨node, e5⟩
                have d8 : s.data[8]? = some '-' := by
                  rw [← List.get?_eq_getElem?]; exact h8
                have d13 : s.data[13]? = some '-' := by
                  rw [← List.get?_eq_getElem?]; exact h13
                have d18 : s.data[18]? = some '-' := by
                  rw [← List.get?_eq_getElem?]; exact h18
                have d23 : s.data[23]? = some '-' := by
                  rw [← List.get?_eq_getElem?]; exact h23
                simp [guidShapeRelaxed, hlen, d8, d13, d18, d23, ho1, ho2, ho3, ho4, ho5]
              · exfalso
                simp only [parse_guid] at hn
                rw [if_neg (by simp [hlen]), if_pos (by tauto)] at hn
                cases hn
            · exfalso
              simp only [parse_guid] at hn
              rw [if_neg (by simp [hlen]), if_pos (by tauto)] at hn
              cases hn
          · exfalso
            simp only [parse_guid] at hn
            rw [if_neg (by simp [hlen]), if_pos (by tauto)] at hn
            cases hn
        · exfalso
          simp only [parse_guid] at hn
          rw [if_neg (by simp [hlen]), if_pos (by tauto)] at hn
          cases hn
      · exfalso
        simp only [parse_guid] at hn
        rw [if_pos hlen] at hn
        cases hn
    · intro hr
      have hfacts := hr
      simp only [guidShapeRelaxed, Bool.and_eq_true, beq_iff_eq] at hfacts
      obtain ⟨⟨⟨⟨⟨⟨⟨⟨⟨hlen, h8⟩, h13⟩, h18⟩, h23⟩, ho1⟩, ho2⟩, ho3⟩, ho4⟩, ho5⟩ := hfacts
      obtain ⟨low, e1⟩ := (from_str_radix16_ok_iff 32 _ hw1).mpr ho1
      obtain ⟨mid, e2⟩ := (from_str_radix16_ok_iff 16 _ hw2).mpr ho2
      obtain ⟨hi, e3⟩ := (from_str_radix16_ok_iff 16 _ hw3).mpr ho3
      obtain ⟨seq, e4⟩ := (from_str_radix16_ok_iff 16 _ hw4).mpr ho4
      obtain ⟨node, e5⟩ := (from_str_radix16_ok_iff 128 _ hw5).mpr ho5
      exact ⟨_, by
        rw [parse_guid_unfold s hlen h8 h13 h18 h23, e1, except_ok_bind, e2, except_ok_bind,
          e3, except_ok_bind, e4, except_ok_bind, e5, except_ok_bind]
        rfl⟩
  · intro hst
    have hfacts := hst
    simp only [guidShapeStrict, Bool.and_eq_true, beq_iff_eq] at hfacts
    obtain ⟨⟨⟨⟨⟨⟨⟨⟨⟨hlen, h8⟩, h13⟩, h18⟩, h23⟩, ha1⟩, ha2⟩, ha3⟩, ha4⟩, ha5⟩ := hfacts
    have hl1 : (s.data.take 8).length = 8 := by
      simp [List.length_take, hlen]
    have hl2 : ((s.data.drop 9).take 4).length = 4 := by
      simp [List.length_take, List.length_drop, hlen]
    have hl3 : ((s.data.drop 14).take 4).length = 4 := by
      simp [List.length_take, List.length_drop, hlen]
    have hl4 : ((s.data.drop 19).take 4).length = 4 := by
      simp [List.length_take, List.length_drop, hlen]
    have hl5 : ((s.data.drop 24).take 12).length = 12 := by
      simp [List.length_take, List.length_drop, hlen]
    have hne1 : s.data.take 8 ≠ [] := by intro h; rw [h] at hl1; cases hl1
    have hne2 : (s.data.drop 9).take 4 ≠ [] := by intro h; rw [h] at hl2; cases hl2
    have hne3 : (s.data.drop 14).take 4 ≠ [] := by intro h; rw [h] at hl3; cases hl3
    have hne4 : (s.data.drop 19).take 4 ≠ [] := by intro h; rw [h] at hl4; cases hl4
    have hne5 : (s.data.drop 24).take 12 ≠ [] := by intro h; rw [h] at hl5; cases hl5
    have hb2 : hexNat ((s.data.drop 9).take 4) < 2 ^ 16 := by
      have h := hexNat_lt _ ha2
      rw [hl2] at h
      exact lt_of_lt_of_le h (by norm_num)
    have hb3 : hexNat ((s.data.drop 14).take 4) < 2 ^ 16 := by
      have h := hexNat_lt _ ha3
      rw [hl3] at h
      exact lt_of_lt_of_le h (by norm_num)
    have hb4 : hexNat ((s.data.drop 19).take 4) < 2 ^ 16 := by
      have h := hexNat_lt _ ha4
      rw [hl4] at h
      exact lt_of_lt_of_le h (by norm_num)
    have hb5 : hexNat ((s.data.drop 24).take 12) < 2 ^ 48 := by
      have h := hexNat_lt _ ha5
      rw [hl5] at h
      exact lt_of_lt_of_le h (by norm_num)
    have hval : hexNat (s.data.take 8 ++ (s.data.drop 9).take 4 ++
        (s.data.drop 14).take 4 ++ (s.data.drop 19).take 4 ++ (s.data.drop 24).take 12) =
        hexNat (s.data.take 8) * 2 ^ 96 + hexNat ((s.data.drop 9).take 4) * 2 ^ 80 +
        hexNat ((s.data.drop 14).take 4) * 2 ^ 64 +
        hexNat ((s.data.drop 19).take 4) * 2 ^ 48 + hexNat ((s.data.drop 24).take 12) := by
      rw [hexNat_append, hexNat_append, hexNat_append, hexNat_append,
        hl2, hl3, hl4, hl5]
      ring
    rw [parse_guid_unfold s hlen h8 h13 h18 h23]
    rw [from_str_radix16_strict 32 _ hne1 ha1 (by rw [hl1]), except_ok_bind]
    rw [from_str_radix16_strict 16 _ hne2 ha2 (by rw [hl2]), except_ok_bind]
    rw [from_str_radix16_strict 16 _ hne3 ha3 (by rw [hl3]), except_ok_bind]
    rw [from_str_radix16_strict 16 _ hne4 ha4 (by rw [hl4]), except_ok_bind]
    rw [from_str_radix16_strict 128 _ hne5 ha5 (by rw [hl5]; norm_num), except_ok_bind]
    rw [hval]
    show Except.ok _ = _
    rw [guid_groups_value _ _ _ _ _ hb2 hb3 hb4 hb5]

/-- Witness for C8: the characterization applied to the repository's own
canonical test GUID, whose value is the byte concatenation of the groups. -/
theorem parse_guid_characterization_witness :
    parse_guid s5Guid = Except.ok (hexNat (s5Guid.data.take 8 ++ (s5Guid.data.drop 9).take 4 ++
      (s5Guid.data.drop 14).take 4 ++ (s5Guid.data.drop 19).take 4 ++
      (s5Guid.data.drop 24).take 12)) ∧
    hexNat (s5Guid.data.take 8 ++ (s5Guid.data.drop 9).take 4 ++
      (s5Guid.data.drop 14).take 4 ++ (s5Guid.data.drop 19).take 4 ++
      (s5Guid.data.drop 24).take 12) = 0xc88af989da734745bccc8476f9950a3c :=
  ⟨(parse_guid_characterization s5Guid).2 (by decide), by decide⟩

/-- The overlap predicate only reads the two token fields. -/
theorem block_ranges_overlap_congr (a a' b b' : BlockRange)
    (ha1 : a.start_token = a'.start_token) (ha2 : a.end_token = a'.end_token)
    (hb1 : b.start_token = b'.start_token) (hb2 : b.end_token = b'.end_token) :
    block_ranges_overlap a b = block_ranges_overlap a' b' := by
  unfold block_ranges_overlap
  rw [ha1, ha2, hb1, hb2]

/-- Invariant of the block-range loop: the per-user-mark groups track the
token pairs of the ranges appended so far, and the appended ranges stay
pairwise non-overlapping within a user mark. -/
theorem mergeBlockRangesLoop_no_overlap :
    ∀ (srcRanges : List BlockRange) (s : MergeState)
      (groups : List (Nat × List BlockRange)) (max_id : Nat) (s' : MergeState)
      (base added : List BlockRange),
      mergeBlockRangesLoop s groups max_id srcRanges = Except.ok s' →
      s.dst.block_ranges = base ++ added →
      (∀ u : Nat, ((groups.lookup u).getD []).map (fun r => (r.start_token, r.end_token)) =
        ((added.filter (fun r => r.user_mark_id == u)).map
          (fun r => (r.start_token, r.end_token)))) →
      added.Pairwise (fun a b => a.user_mark_id = b.user_mark_id →
        block_ranges_overlap a b = false) →
      ∃ added', s'.dst.block_ranges = base ++ added' ∧
        added'.Pairwise (fun a b => a.user_mark_id = b.user_mark_id →
          block_ranges_overlap a b = false) := by
  intro srcRanges
  induction srcRanges with
  | nil =>
    intro s groups max_id s' base added hrun hsplit hinv hpw
    simp only [mergeBlockRangesLoop] at hrun
    injection hrun with h
    subst h
    exact ⟨added, hsplit, hpw⟩
  | cons src rest ih =>
    intro s groups max_id s' base added hrun hsplit hinv hpw
    simp only [mergeBlockRangesLoop] at hrun
    cases htr : s.user_mark_translate.lookup src.user_mark_id with
    | none =>
      simp only [htr] at hrun
      cases hrun
    | some u =>
      simp only [htr] at hrun
      by_cases hov : (((groups.lookup u).getD []).any
          (fun b => block_ranges_overlap b src)) = true
      · simp only [hov, if_true] at hrun
        exact ih _ _ _ _ base added hrun hsplit hinv hpw
      · simp only [hov, Bool.false_eq_true, if_false] at hrun
        refine ih _ _ _ _ base
          (added ++ [{ src with block_range_id := max_id + 1, user_mark_id := u }])
          hrun ?_ ?_ ?_
        · simp only []
          rw [hsplit, List.append_assoc]
        · intro v
          by_cases hv : v = u
          · subst hv
            have hlk : List.lookup v ((v, ((groups.lookup v).getD []) ++ [src]) :: groups)
                = some (((groups.lookup v).getD []) ++ [src]) := by
              simp [List.lookup]
            rw [hlk]
            simp only [Option.getD_some, List.filter_append, List.map_append]
            rw [hinv v]
            simp
          · have hbe : (v == u) = false := by simp [hv]
            have hlk : List.lookup v ((u, ((groups.lookup u).getD []) ++ [src]) :: groups)
                = List.lookup v groups := by
              simp [List.lookup, hbe]
            rw [hlk]
            rw [hinv v]
            have : List.filter (fun r => r.user_mark_id == v)
                [{ src with block_range_id := max_id + 1, user_mark_id := u }] = [] := by
              simp [hv, Ne.symm hv]
            rw [List.filter_append, this, List.append_nil]
        · rw [List.pairwise_append]
          refine ⟨hpw, List.pairwise_singleton _ _, ?_⟩
          intro a ha b hb
          simp only [List.mem_singleton] at hb
          subst hb
          intro hum
          have hau : a.user_mark_id = u := by simpa using hum
          have hmem : (a.start_token, a.end_token) ∈
              ((groups.lookup u).getD []).map (fun r => (r.start_token, r.end_token)) := by
            rw [hinv u]
            exact List.mem_map_of_mem _ (List.mem_filter.mpr ⟨ha, by simp [hau]⟩)
          rcases List.mem_map.mp hmem with ⟨b, hbmem, htok⟩
          have h1 : b.start_token = a.start_token := congrArg Prod.fst htok
          have h2 : b.end_token = a.end_token := congrArg Prod.snd htok
          have hno : block_ranges_overlap b src = false := by
            by_contra hne
            have hb' : block_ranges_overlap b src = true := by
              cases hx : block_ranges_overlap b src
              · exact absurd hx hne
              · rfl
            exact hov (List.any_eq_true.mpr ⟨b, hbmem, hb'⟩)
          have hcg : block_ranges_overlap a
              { src with block_range_id := max_id + 1, user_mark_id := u } =
              block_ranges_overlap b src :=
            block_ranges_overlap_congr a b _ src h1.symm h2.symm rfl rfl
          rw [hcg]
          exact hno

/-- **C3 (amended)**.  `merge_block_ranges` only appends, and among the
newly appended ranges no two referencing the same UserMark satisfy the
overlap predicate (the accepted-group check guarantees this).  The claim's
full-Model invariant fails because ranges already present in the
destination before the pass are never checked against the new ones — see
the counterexample. -/
theorem merge_block_ranges_new_ranges_no_overlap (s s' : MergeState)
    (hrun : merge_block_ranges s = Except.ok s') :
    ∃ added : List BlockRange,
      s'.dst.block_ranges = s.dst.block_ranges ++ added ∧
      added.Pairwise (fun a b => a.user_mark_id = b.user_mark_id →
        block_ranges_overlap a b = false) := by
  rw [merge_block_ranges] at hrun
  by_cases hemp : s.src.block_ranges.isEmpty
  · rw [if_pos hemp] at hrun
    injection hrun with h
    subst h
    exact ⟨[], by simp, List.Pairwise.nil⟩
  · rw [if_neg hemp] at hrun
    exact mergeBlockRangesLoop_no_overlap _ _ _ _ _ s.dst.block_ranges [] hrun
      (by simp) (by simp) List.Pairwise.nil

/-- Witness for C3 (amended): one source range merged through an existing
user-mark translation; the appended list is overlap-free within the mark. -/
theorem merge_block_ranges_new_ranges_no_overlap_witness :
    ∃ s', merge_block_ranges c3AmState = Except.ok s' ∧
      ∃ added : List BlockRange,
        s'.dst.block_ranges = c3AmState.dst.block_ranges ++ added ∧
        added.Pairwise (fun a b => a.user_mark_id = b.user_mark_id →
          block_ranges_overlap a b = false) :=
  ⟨_, rfl, merge_block_ranges_new_ranges_no_overlap c3AmState _ rfl⟩

/-- `findSlot` finds nothing exactly on the gap-free run starting at `i`. -/
theorem findSlot_eq_none_iff : ∀ (l : List Nat) (i : Nat),
    findSlot l i = none ↔ l = List.range' i l.length := by
  intro l
  induction l with
  | nil => intro i; simp [findSlot]
  | cons b rest ih =>
    intro i
    simp only [findSlot, List.length_cons, List.range'_succ]
    by_cases hb : b = i
    · subst hb
      rw [if_neg (by simp)]
      simp [ih (b + 1)]
    · rw [if_pos hb]
      simp [hb]

/-- On a strictly sorted list with entries ≥ `i`, a found slot is the least
value ≥ `i` absent from the list. -/
theorem findSlot_eq_some : ∀ (l : List Nat), l.Sorted (· < ·) → ∀ (i j : Nat),
    (∀ x ∈ l, i ≤ x) → findSlot l i = some j →
    j ∉ l ∧ i ≤ j ∧ (∀ k, i ≤ k → k < j → k ∈ l) := by
  intro l
  induction l with
  | nil =>
    intro _ i j _ h
    simp [findSlot] at h
  | cons b rest ih =>
    intro hsort i j hge h
    have hsc := List.sorted_cons.mp hsort
    simp only [findSlot] at h
    by_cases hb : b = i
    · subst hb
      rw [if_neg (by simp)] at h
      have hge' : ∀ x ∈ rest, b + 1 ≤ x := fun x hx => hsc.1 x hx
      obtain ⟨hj1, hj2, hj3⟩ := ih hsc.2 (b + 1) j hge' h
      refine ⟨?_, by omega, ?_⟩
      · simp only [List.mem_cons]
        rintro (rfl | hmem)
        · omega
        · exact hj1 hmem
      · intro k hk1 hk2
        by_cases hkb : k = b
        · simp [hkb]
        · exact List.mem_cons_of_mem _ (hj3 k (by omega) hk2)
    · rw [if_pos hb] at h
      injection h with h
      subst h
      have hbi : i < b := lt_of_le_of_ne (hge b (List.mem_cons_self b rest)) (Ne.symm hb)
      refine ⟨?_, le_refl i, fun k hk1 hk2 => absurd (lt_of_le_of_lt hk1 hk2) (lt_irrefl i)⟩
      simp only [List.mem_cons]
      rintro (rfl | hmem)
      · omega
      · have := hsc.1 i hmem
        omega

/-- The probe list (slots plus the sentinel 10) sorted: it is strictly
sorted and carries exactly the slots and the sentinel. -/
theorem sorted_slots_facts (S : List Nat) (hnodup : S.Nodup) (hlt10 : ∀ x ∈ S, x < 10) :
    (List.insertionSort (· ≤ ·) (S ++ [10])).Sorted (· < ·) ∧
    (∀ x, x ∈ List.insertionSort (· ≤ ·) (S ++ [10]) ↔ (x ∈ S ∨ x = 10)) := by
  have hperm := List.perm_insertionSort (· ≤ ·) (S ++ [10])
  have hnd : (S ++ [10]).Nodup := by
    rw [List.nodup_append]
    refine ⟨hnodup, List.nodup_singleton _, ?_⟩
    intro x hx hx10
    rw [List.mem_singleton] at hx10
    subst hx10
    exact absurd (hlt10 _ hx) (by omega)
  constructor
  · have hnds : (List.insertionSort (· ≤ ·) (S ++ [10])).Nodup := hperm.nodup_iff.mpr hnd
    have hle := List.sorted_insertionSort (· ≤ ·) (S ++ [10])
    exact (hle.and hnds).imp (fun h => lt_of_le_of_ne h.1 h.2)
  · intro x
    rw [hperm.mem_iff, List.mem_append, List.mem_singleton]

/-- When the lowest absent slot `j < 10` exists, the slot probe finds it. -/
theorem findSlot_sorted_least (S : List Nat) (hnodup : S.Nodup) (hlt10 : ∀ x ∈ S, x < 10)
    (j : Nat) (hj10 : j < 10) (hjS : j ∉ S) (hleast : ∀ k, k < j → k ∈ S) :
    findSlot (List.insertionSort (· ≤ ·) (S ++ [10])) 0 = some j := by
  obtain ⟨hsort, hmem⟩ := sorted_slots_facts S hnodup hlt10
  cases hr : findSlot (List.insertionSort (· ≤ ·) (S ++ [10])) 0 with
  | none =>
    exfalso
    rw [findSlot_eq_none_iff] at hr
    have h10 : (10 : Nat) ∈ List.insertionSort (· ≤ ·) (S ++ [10]) := (hmem 10).mpr (Or.inr rfl)
    have hlen : 10 < (List.insertionSort (· ≤ ·) (S ++ [10])).length := by
      rw [hr] at h10
      have := List.mem_range'_1.mp h10
      omega
    have hjl : j ∈ List.insertionSort (· ≤ ·) (S ++ [10]) := by
      rw [hr]
      exact List.mem_range'_1.mpr ⟨Nat.zero_le j, by omega⟩
    rcases (hmem j).mp hjl with h | h
    · exact hjS h
    · omega
  | some j' =>
    obtain ⟨hn, _, hl⟩ := findSlot_eq_some _ hsort 0 j' (fun x _ => Nat.zero_le x) hr
    have hj'j : j' = j := by
      rcases Nat.lt_trichotomy j' j with h | h | h
      · exact absurd ((hmem j').mpr (Or.inl (hleast j' h))) hn
      · exact h
      · rcases (hmem j).mp (hl j (Nat.zero_le j) h) with hx | hx
        · exact absurd hx hjS
        · omega
    rw [hj'j]

/-- When every slot below 10 is taken, the probe finds nothing. -/
theorem findSlot_sorted_full (S : List Nat) (hnodup : S.Nodup) (hlt10 : ∀ x ∈ S, x < 10)
    (hall : ∀ j, j < 10 → j ∈ S) :
    findSlot (List.insertionSort (· ≤ ·) (S ++ [10])) 0 = none := by
  have hperm := List.perm_insertionSort (· ≤ ·) (S ++ [10])
  have hSr : S.Perm (List.range 10) := by
    apply (List.perm_ext_iff_of_nodup hnodup (List.nodup_range 10)).mpr
    intro a
    rw [List.mem_range]
    exact ⟨fun h => hlt10 a h, fun h => hall a h⟩
  have hperm2 : (List.insertionSort (· ≤ ·) (S ++ [10])).Perm (List.range 11) := by
    refine hperm.trans ?_
    have h1 : (S ++ [10]).Perm (List.range 10 ++ [10]) := hSr.append_right [10]
    have h2 : List.range 11 = List.range 10 ++ [10] := List.range_succ 10
    rw [h2]
    exact h1
  have heq : List.insertionSort (· ≤ ·) (S ++ [10]) = List.range 11 :=
    List.eq_of_perm_of_sorted hperm2
      (List.sorted_insertionSort (· ≤ ·) (S ++ [10])) (List.sorted_le_range 11)
  rw [heq]
  decide

/-- **C4 (amended)**.  One step of the bookmark merge, after interning both
location references.  The probe list always contains the sentinel 10, so a
source slot of 10 counts as a collision even against an empty destination
(see the counterexample).  Provided the destination slots for the interned
publication location are pairwise distinct and below 10 and the source slot
is below 10: a free slot is kept; a colliding slot is replaced by the lowest
`j < 10` absent from the slot set; and when every slot below 10 is taken the
bookmark is dropped and exactly one `BookmarkOverflow` message carrying the
bookmark's title and snippet is emitted. -/
theorem mergeBookmarkStep_slot_rule
    (s : MergeState) (max_id : Nat) (src : Bookmark)
    (lm1 : LocationMerge) (locs1 : List Location) (nl : Nat)
    (lm2 : LocationMerge) (locs2 : List Location) (np : Nat)
    (s' : MergeState) (max' : Nat) (S : List Nat)
    (h1 : insert_location s.location s.dst.locations src.location_id =
      Except.ok (lm1, locs1, nl))
    (h2 : insert_location lm1 locs1 src.publication_location_id =
      Except.ok (lm2, locs2, np))
    (hrun : mergeBookmarkStep s max_id src = Except.ok (s', max'))
    (hS : S = (s.dst.bookmarks.filter
      (fun b => b.publication_location_id == np)).map (·.slot))
    (hnodup : S.Nodup) (hlt10 : ∀ x ∈ S, x < 10) (hslot : src.slot < 10) :
    (src.slot ∉ S →
      s'.dst.bookmarks = s.dst.bookmarks ++
        [{ src with location_id := nl, publication_location_id := np,
                    bookmark_id := max_id + 1 }] ∧
      s'.messages = s.messages)
    ∧ (∀ j, src.slot ∈ S → j < 10 → j ∉ S → (∀ k, k < j → k ∈ S) →
      s'.dst.bookmarks = s.dst.bookmarks ++
        [{ src with location_id := nl, publication_location_id := np,
                    bookmark_id := max_id + 1, slot := j }] ∧
      s'.messages = s.messages)
    ∧ ((∀ j, j < 10 → j ∈ S) →
      s'.dst.bookmarks = s.dst.bookmarks ∧
      ∃ ks itn, s'.messages = s.messages ++
        [Message.BookmarkOverflow ks itn src.title src.snippet]) := by
  simp only [mergeBookmarkStep, h1, h2, except_ok_bind] at hrun
  rw [← hS] at hrun
  refine ⟨?_, ?_, ?_⟩
  · intro hnotin
    have hmm : src.slot ∉ S ++ [10] := by
      rw [List.mem_append, List.mem_singleton]
      push_neg
      exact ⟨hnotin, by omega⟩
    rw [if_neg (by simpa using hmm)] at hrun
    injection hrun with hp
    injection hp with hA hB
    subst hA
    exact ⟨rfl, rfl⟩
  · intro j hin hj10 hjS hleast
    have hc : ((S ++ [10]).contains src.slot) = true := by simp [hin]
    rw [if_pos hc] at hrun
    simp only [findSlot_sorted_least S hnodup hlt10 j hj10 hjS hleast] at hrun
    injection hrun with hp
    injection hp with hA hB
    subst hA
    exact ⟨rfl, rfl⟩
  · intro hall
    have hin : src.slot ∈ S := hall src.slot hslot
    have hc : ((S ++ [10]).contains src.slot) = true := by simp [hin]
    rw [if_pos hc] at hrun
    simp only [findSlot_sorted_full S hnodup hlt10 hall] at hrun
    cases hlk : List.lookup src.publication_location_id lm2.location_translate with
    | none =>
      rw [hlk] at hrun
      exact Except.noConfusion hrun
    | some t =>
      rw [hlk] at hrun
      injection hrun with hp
      injection hp with hA hB
      subst hA
      exact ⟨rfl, t.2.key_symbol, t.2.issue_tag_number, rfl⟩

/-- Witness for C4 (amended), scenario S2: source slot 8 collides with the
destination's slot 8 for the same publication location, and the bookmark is
re-assigned the lowest free slot 0 with no messages (output slots {0, 8}). -/
theorem mergeBookmarkStep_slot_rule_witness :
    ∃ (s' : MergeState) (max' : Nat),
      mergeBookmarkStep s2State 1 s2SrcBookmark = Except.ok (s', max') ∧
      s'.dst.bookmarks = s2State.dst.bookmarks ++
        [{ s2SrcBookmark with location_id := 123, publication_location_id := 123,
                              bookmark_id := 2, slot := 0 }] ∧
      s'.messages = s2State.messages := by
  refine ⟨_, _, rfl, ?_⟩
  have h := mergeBookmarkStep_slot_rule s2State 1 s2SrcBookmark
    _ _ _ _ _ _ _ _ [8] rfl rfl rfl (by decide) (by decide) (by decide) (by decide)
  exact h.2.1 0 (by decide) (by decide) (by decide)
    (fun k hk => absurd hk (Nat.not_lt_zero k))

/-- A found entry really is at that index and satisfies the predicate. -/
theorem findLastWithIdx_get (p : α → Bool) :
    ∀ (l : List α) (i : Nat) (x : α), findLastWithIdx p l = some (i, x) →
      l.get? i = some x ∧ p x = true := by
  intro l
  induction l with
  | nil => intro i x h; simp [findLastWithIdx] at h
  | cons a rest ih =>
    intro i x h
    simp only [findLastWithIdx] at h
    cases hr : findLastWithIdx p rest with
    | some ix =>
      rw [hr] at h
      obtain ⟨j, y⟩ := ix
      injection h with h
      have h1 : j + 1 = i := congrArg Prod.fst h
      have h2 : y = x := congrArg Prod.snd h
      obtain ⟨hg, hp⟩ := ih j y hr
      rw [← h1, ← h2]
      exact ⟨hg, hp⟩
    | none =>
      rw [hr] at h
      by_cases hpa : p a = true
      · rw [if_pos hpa] at h
        injection h with h
        have h1 : 0 = i := congrArg Prod.fst h
        have h2 : a = x := congrArg Prod.snd h
        subst h2
        rw [← h1]
        exact ⟨rfl, hpa⟩
      · rw [if_neg hpa] at h
        cases h

/-- Nothing is found in a list where the predicate never holds. -/
theorem findLastWithIdx_eq_none (p : α → Bool) :
    ∀ (l : List α), (∀ x ∈ l, p x = false) → findLastWithIdx p l = none := by
  intro l
  induction l with
  | nil => intro _; rfl
  | cons a rest ih =>
    intro h
    simp only [findLastWithIdx]
    rw [ih (fun x hx => h x (List.mem_cons_of_mem a hx))]
    rw [if_neg (by simp [h a (List.mem_cons_self a rest)])]

/-- Appending entries that never satisfy the predicate does not change the
search result. -/
theorem findLastWithIdx_append (p : α → Bool) :
    ∀ (l₁ l₂ : List α), (∀ x ∈ l₂, p x = false) →
      findLastWithIdx p (l₁ ++ l₂) = findLastWithIdx p l₁ := by
  intro l₁ l₂ h
  induction l₁ with
  | nil =>
    simp only [List.nil_append, findLastWithIdx]
    exact findLastWithIdx_eq_none p l₂ h
  | cons a rest ih =>
    simp only [List.cons_append, findLastWithIdx, List.append_eq, ih]

/-- Overwriting an entry with one that agrees on the predicate rewrites the
search result pointwise. -/
theorem findLastWithIdx_set (p : α → Bool) :
    ∀ (l : List α) (j : Nat) (x y : α), l.get? j = some y → p x = p y →
      findLastWithIdx p (l.set j x) =
        (match findLastWithIdx p l with
          | some (i, d) => some (i, if i = j then x else d)
          | none => none) := by
  intro l
  induction l with
  | nil => intro j x y h _; simp at h
  | cons a rest ih =>
    intro j x y hget hp
    cases j with
    | zero =>
      simp only [List.get?] at hget
      injection hget with hget
      subst hget
      simp only [List.set, findLastWithIdx]
      cases hr : findLastWithIdx p rest with
      | some ix =>
        obtain ⟨i, d⟩ := ix
        simp
      | none =>
        rw [hp]
        by_cases hpz : p a = true <;> simp [hpz]
    | succ k =>
      simp only [List.get?] at hget
      simp only [List.set, findLastWithIdx]
      rw [ih k x y hget hp]
      cases hr : findLastWithIdx p rest with
      | some ix =>
        obtain ⟨i, d⟩ := ix
        by_cases hik : i = k
        · subst hik
          simp
        · simp [hik, fun h => hik (Nat.succ_injective h)]
      | none =>
        by_cases hpa : p a = true <;> simp [hpa]

/-- Overwriting an entry with one that (like the old entry) fails the predicate
leaves the search result unchanged. -/
theorem findLastWithIdx_set_other (p : α → Bool) (l : List α) (j : Nat) (x y : α)
    (hget : l.get? j = some y) (hpy : p y = false) (hpx : p x = false) :
    findLastWithIdx p (l.set j x) = findLastWithIdx p l := by
  rw [findLastWithIdx_set p l j x y hget (by rw [hpx, hpy])]
  cases hfl : findLastWithIdx p l with
  | none => rfl
  | some id₀ =>
    obtain ⟨i₀, d₀⟩ := id₀
    have hd := findLastWithIdx_get p l i₀ d₀ hfl
    have hij : i₀ ≠ j := by
      intro h
      subst h
      rw [hd.1] at hget
      injection hget with hq
      rw [← hq, hd.2] at hpy
      simp at hpy
    simp [hij]

/-- One step of the note loop on a source note whose guid does not resolve to
`g` preserves the `g`-keyed destination entry and adds no `g`-note to the
pending list. -/
theorem mergeNotesLoop_step (parseTs : String → Except String Int) (g : Nat)
    (s : MergeState) (new_notes : List Note) (max_note_id : Nat) (m : Note)
    (rest : List Note) (res : MergeState × List Note)
    (hrun : mergeNotesLoop parseTs s new_notes max_note_id (m :: rest) = Except.ok res)
    (hm : noteMatchesGuid g m = false)
    (hnn : ∀ x ∈ new_notes, noteMatchesGuid g x = false) :
    ∃ (s₁ : MergeState) (nn₁ : List Note) (mx₁ : Nat),
      mergeNotesLoop parseTs s₁ nn₁ mx₁ rest = Except.ok res ∧
      findLastWithIdx (noteMatchesGuid g) s₁.dst.notes =
        findLastWithIdx (noteMatchesGuid g) s.dst.notes ∧
      (∀ x ∈ nn₁, noteMatchesGuid g x = false) := by
  obtain ⟨nid, gu, umid, lid, tt, ct, lmod, bt, bi⟩ := m
  simp only [mergeNotesLoop] at hrun
  cases hg : parse_guid gu with
  | error e => rw [hg, except_error_bind] at hrun; cases hrun
  | ok g' =>
    rw [hg, except_ok_bind] at hrun
    have hgg : g' ≠ g := by
      intro h
      subst h
      simp [noteMatchesGuid, hg] at hm
    cases hf : findLastWithIdx (noteMatchesGuid g') s.dst.notes with
    | some id₀ =>
      obtain ⟨i₀, dj⟩ := id₀
      simp only [hf] at hrun
      cases hts : parseTs lmod with
      | error e => simp only [hts, except_error_bind] at hrun; cases hrun
      | ok tS =>
        simp only [hts, except_ok_bind] at hrun
        cases htd : parseTs dj.last_modified with
        | error e => simp only [htd, except_error_bind] at hrun; cases hrun
        | ok tD =>
          simp only [htd, except_ok_bind] at hrun
          have hdj := findLastWithIdx_get (noteMatchesGuid g') s.dst.notes i₀ dj hf
          have hdj2 : parse_guid dj.guid = Except.ok g' := by
            have h2 := hdj.2
            simp only [noteMatchesGuid, decide_eq_true_eq] at h2
            exact h2
          have hpdj : noteMatchesGuid g dj = false := by
            simp [noteMatchesGuid, hdj2, hgg]
          by_cases hlt : tD < tS
          · rw [if_pos hlt] at hrun
            refine ⟨_, new_notes, max_note_id, hrun, ?_, hnn⟩
            exact findLastWithIdx_set_other (noteMatchesGuid g) s.dst.notes i₀ _ dj
              hdj.1 hpdj hpdj
          · rw [if_neg hlt] at hrun
            exact ⟨_, new_notes, max_note_id, hrun, rfl, hnn⟩
    | none =>
      simp only [hf] at hrun
      cases umid with
      | some u =>
        cases hlk : s.user_mark_translate.lookup u with
        | none =>
          simp only [hlk, except_error_bind] at hrun
          cases hrun
        | some t =>
          simp only [hlk, except_ok_bind] at hrun
          cases lid with
          | some l =>
            cases hins : insert_location s.location s.dst.locations l with
            | error e =>
              simp only [hins, except_error_bind] at hrun
              cases hrun
            | ok v =>
              obtain ⟨lm, dstLocs, nli⟩ := v
              simp only [hins, except_ok_bind] at hrun
              refine ⟨_, _, max_note_id + 1, hrun, rfl, ?_⟩
              intro x hx
              rcases List.mem_append.mp hx with hx | hx
              · exact hnn x hx
              · rw [List.mem_singleton.mp hx]
                exact hm
          | none =>
            refine ⟨_, _, max_note_id + 1, hrun, rfl, ?_⟩
            intro x hx
            rcases List.mem_append.mp hx with hx | hx
            · exact hnn x hx
            · rw [List.mem_singleton.mp hx]
              exact hm
      | none =>
        simp only [except_ok_bind] at hrun
        cases lid with
        | some l =>
          cases hins : insert_location s.location s.dst.locations l with
          | error e =>
            simp only [hins, except_error_bind] at hrun
            cases hrun
          | ok v =>
            obtain ⟨lm, dstLocs, nli⟩ := v
            simp only [hins, except_ok_bind] at hrun
            refine ⟨_, _, max_note_id + 1, hrun, rfl, ?_⟩
            intro x hx
            rcases List.mem_append.mp hx with hx | hx
            · exact hnn x hx
            · rw [List.mem_singleton.mp hx]
              exact hm
        | none =>
          refine ⟨_, _, max_note_id + 1, hrun, rfl, ?_⟩
          intro x hx
          rcases List.mem_append.mp hx with hx | hx
          · exact hnn x hx
          · rw [List.mem_singleton.mp hx]
            exact hm

/-- Running the note loop over source notes none of which resolve to `g`
preserves the `g`-keyed destination entry. -/
theorem mergeNotesLoop_no_match (parseTs : String → Except String Int) (g : Nat) :
    ∀ (srcNotes : List Note) (s : MergeState) (new_notes : List Note) (max_note_id : Nat)
      (res : MergeState × List Note),
      mergeNotesLoop parseTs s new_notes max_note_id srcNotes = Except.ok res →
      (∀ m ∈ srcNotes, noteMatchesGuid g m = false) →
      (∀ m ∈ new_notes, noteMatchesGuid g m = false) →
      findLastWithIdx (noteMatchesGuid g) res.1.dst.notes =
        findLastWithIdx (noteMatchesGuid g) s.dst.notes ∧
      (∀ m ∈ res.2, noteMatchesGuid g m = false) := by
  intro srcNotes
  induction srcNotes with
  | nil =>
    intro s new_notes max_note_id res hrun hsrc hnn
    simp only [mergeNotesLoop] at hrun
    injection hrun with hrun
    subst hrun
    exact ⟨rfl, hnn⟩
  | cons m rest ih =>
    intro s new_notes max_note_id res hrun hsrc hnn
    obtain ⟨s₁, nn₁, mx₁, hrun₁, hpres, hnn₁⟩ :=
      mergeNotesLoop_step parseTs g s new_notes max_note_id m rest res hrun
        (hsrc m (List.mem_cons_self m rest)) hnn
    obtain ⟨h1, h2⟩ := ih s₁ nn₁ mx₁ res hrun₁
      (fun x hx => hsrc x (List.mem_cons_of_mem m hx)) hnn₁
    exact ⟨h1.trans hpres, h2⟩

/-- Running the note loop over source notes exactly one of which resolves to
`g`: the tracked destination note ends up overwritten with the source's title,
content and last-modified exactly when the destination timestamp is strictly
older. -/
theorem mergeNotesLoop_match (parseTs : String → Except String Int) (g : Nat) :
    ∀ (pre : List Note) (n : Note) (post : List Note) (s : MergeState)
      (new_notes : List Note) (max_note_id : Nat) (res : MergeState × List Note)
      (i : Nat) (d : Note) (tn td : Int),
      mergeNotesLoop parseTs s new_notes max_note_id (pre ++ n :: post) = Except.ok res →
      findLastWithIdx (noteMatchesGuid g) s.dst.notes = some (i, d) →
      parse_guid n.guid = Except.ok g →
      (∀ m ∈ pre, noteMatchesGuid g m = false) →
      (∀ m ∈ post, noteMatchesGuid g m = false) →
      (∀ m ∈ new_notes, noteMatchesGuid g m = false) →
      parseTs n.last_modified = Except.ok tn →
      parseTs d.last_modified = Except.ok td →
      findLastWithIdx (noteMatchesGuid g) res.1.dst.notes =
        some (i, if td < tn then { d with title := n.title, content := n.content,
                                          last_modified := n.last_modified } else d) ∧
      (∀ m ∈ res.2, noteMatchesGuid g m = false) := by
  intro pre
  induction pre with
  | nil =>
    intro n post s new_notes max_note_id res i d tn td hrun hdst hn hpre hpost hnn htn htd
    simp only [List.nil_append, mergeNotesLoop] at hrun
    rw [hn, except_ok_bind] at hrun
    simp only [hdst] at hrun
    rw [htn, except_ok_bind] at hrun
    rw [htd, except_ok_bind] at hrun
    have hget := (findLastWithIdx_get (noteMatchesGuid g) s.dst.notes i d hdst).1
    by_cases hlt : td < tn
    · rw [if_pos hlt] at hrun
      obtain ⟨h1, h2⟩ := mergeNotesLoop_no_match parseTs g post _ new_notes max_note_id res
        hrun hpost hnn
      refine ⟨h1.trans ?_, h2⟩
      rw [if_pos hlt]
      have hval : findLastWithIdx (noteMatchesGuid g)
          (s.dst.notes.set i { d with title := n.title, content := n.content,
                                      last_modified := n.last_modified }) =
          some (i, { d with title := n.title, content := n.content,
                            last_modified := n.last_modified }) := by
        rw [findLastWithIdx_set (noteMatchesGuid g) s.dst.notes i
          { d with title := n.title, content := n.content, last_modified := n.last_modified }
          d hget rfl, hdst]
        simp
      exact hval
    · rw [if_neg hlt] at hrun
      obtain ⟨h1, h2⟩ := mergeNotesLoop_no_match parseTs g post _ new_notes max_note_id res
        hrun hpost hnn
      refine ⟨h1.trans ?_, h2⟩
      rw [if_neg hlt]
      exact hdst
  | cons m pre' ih =>
    intro n post s new_notes max_note_id res i d tn td hrun hdst hn hpre hpost hnn htn htd
    rw [List.cons_append] at hrun
    obtain ⟨s₁, nn₁, mx₁, hrun₁, hpres, hnn₁⟩ :=
      mergeNotesLoop_step parseTs g s new_notes max_note_id m (pre' ++ n :: post) res hrun
        (hpre m (List.mem_cons_self m pre')) hnn
    exact ih n post s₁ nn₁ mx₁ res i d tn td hrun₁ (hpres.trans hdst) hn
      (fun x hx => hpre x (List.mem_cons_of_mem m hx)) hpost hnn₁ htn htd

/-- For `merge_notes` on a source containing exactly one note with guid `g` and
a destination whose `g`-keyed entry is `(i, d)`: index `i` of the output holds
`d` with title, content and last-modified replaced by the source's exactly when
the timestamp of `d` is strictly older. -/
theorem merge_notes_tracked (parseTs : String → Except String Int) (s s' : MergeState)
    (g : Nat) (pre post : List Note) (n : Note) (i : Nat) (d : Note) (tn td : Int)
    (hrun : merge_notes parseTs s = Except.ok s')
    (hsplit : s.src.notes = pre ++ n :: post)
    (hn : parse_guid n.guid = Except.ok g)
    (hpre : ∀ m ∈ pre, noteMatchesGuid g m = false)
    (hpost : ∀ m ∈ post, noteMatchesGuid g m = false)
    (hdst : findLastWithIdx (noteMatchesGuid g) s.dst.notes = some (i, d))
    (htn : parseTs n.last_modified = Except.ok tn)
    (htd : parseTs d.last_modified = Except.ok td) :
    s'.dst.notes.get? i =
      some (if td < tn then { d with title := n.title, content := n.content,
                                     last_modified := n.last_modified } else d) := by
  have hne : s.src.notes.isEmpty = false := by rw [hsplit]; cases pre <;> rfl
  simp only [merge_notes, hne, Bool.false_eq_true, if_false] at hrun
  cases hchk : checkNoteGuids s.dst.notes with
  | error e => rw [hchk, except_error_bind] at hrun; cases hrun
  | ok u =>
    rw [hchk, except_ok_bind] at hrun
    rw [hsplit] at hrun
    cases hloop : mergeNotesLoop parseTs { s with src := { s.src with notes := [] } } []
        (maxOr0 (s.dst.notes.map (fun nt => nt.note_id))) (pre ++ n :: post) with
    | error e => rw [hloop, except_error_bind] at hrun; cases hrun
    | ok r =>
      obtain ⟨s₂, nn₂⟩ := r
      simp only [hloop, except_ok_bind] at hrun
      obtain ⟨h1, h2⟩ := mergeNotesLoop_match parseTs g pre n post
        { s with src := { s.src with notes := [] } } []
        (maxOr0 (s.dst.notes.map (fun nt => nt.note_id)))
        (s₂, nn₂) i d tn td hloop hdst hn hpre hpost (fun x hx => absurd hx (by simp)) htn htd
      have h3 : findLastWithIdx (noteMatchesGuid g) (s₂.dst.notes ++ nn₂) =
          some (i, if td < tn then { d with title := n.title, content := n.content,
                                            last_modified := n.last_modified } else d) := by
        rw [findLastWithIdx_append (noteMatchesGuid g) s₂.dst.notes nn₂ h2]
        exact h1
      injection hrun with hrun
      rw [← hrun]
      exact (findLastWithIdx_get (noteMatchesGuid g) _ i _ h3).1

/-- C1: when a source Note's guid resolves to the same 128-bit value as a
destination Note's, the output note's (title, content, last-modified) triple is
the source's when the source's timestamp is strictly later, and the
destination's otherwise — last writer wins. -/
theorem merge_notes_last_writer_wins (parseTs : String → Except String Int)
    (s s' : MergeState) (g : Nat) (pre post : List Note) (n : Note) (i : Nat) (d : Note)
    (tn td : Int)
    (hrun : merge_notes parseTs s = Except.ok s')
    (hsplit : s.src.notes = pre ++ n :: post)
    (hn : parse_guid n.guid = Except.ok g)
    (hpre : ∀ m ∈ pre, noteMatchesGuid g m = false)
    (hpost : ∀ m ∈ post, noteMatchesGuid g m = false)
    (hdst : findLastWithIdx (noteMatchesGuid g) s.dst.notes = some (i, d))
    (htn : parseTs n.last_modified = Except.ok tn)
    (htd : parseTs d.last_modified = Except.ok td) :
    ∃ out : Note, s'.dst.notes.get? i = some out ∧
      (out.title, out.content, out.last_modified) =
        (if td < tn then (n.title, n.content, n.last_modified)
         else (d.title, d.content, d.last_modified)) := by
  refine ⟨_, merge_notes_tracked parseTs s s' g pre post n i d tn td hrun hsplit hn
    hpre hpost hdst htn htd, ?_⟩
  by_cases hlt : td < tn <;> simp [hlt]

/-- Witness: the S5 pair (destination content "old" dated 2020, source
"new" dated 2021) merges to content "new" with the 2021 stamp. -/
theorem merge_notes_last_writer_wins_witness :
    ∃ (s' : MergeState) (out : Note),
      merge_notes demoParseTs c1State = Except.ok s' ∧
      s'.dst.notes.get? 0 = some out ∧
      (out.title, out.content, out.last_modified) =
        (some "t", some "new", "2021-01-01T00:00:00Z") := by
  obtain ⟨out, h1, h2⟩ := merge_notes_last_writer_wins demoParseTs c1State _
    266567197365317649698407360119363144252 [] [] s5NewNote 0 s5OldNote
    1609459200 1577836800 rfl rfl rfl (by simp) (by simp) rfl rfl rfl
  exact ⟨_, out, rfl, h1, h2.trans rfl⟩

/-- C9: when a source Note's guid matches an existing destination Note, the
destination note's `user_mark_id` and `location_id` — and every other field
besides title, content and last_modified — are left untouched, whether or not
the in-place update fires. -/
theorem merge_notes_update_preserves_references (parseTs : String → Except String Int)
    (s s' : MergeState) (g : Nat) (pre post : List Note) (n : Note) (i : Nat) (d : Note)
    (tn td : Int)
    (hrun : merge_notes parseTs s = Except.ok s')
    (hsplit : s.src.notes = pre ++ n :: post)
    (hn : parse_guid n.guid = Except.ok g)
    (hpre : ∀ m ∈ pre, noteMatchesGuid g m = false)
    (hpost : ∀ m ∈ post, noteMatchesGuid g m = false)
    (hdst : findLastWithIdx (noteMatchesGuid g) s.dst.notes = some (i, d))
    (htn : parseTs n.last_modified = Except.ok tn)
    (htd : parseTs d.last_modified = Except.ok td) :
    ∃ out : Note, s'.dst.notes.get? i = some out ∧
      out.user_mark_id = d.user_mark_id ∧ out.location_id = d.location_id ∧
      out.note_id = d.note_id ∧ out.guid = d.guid ∧
      out.block_type = d.block_type ∧ out.block_identifier = d.block_identifier := by
  refine ⟨_, merge_notes_tracked parseTs s s' g pre post n i d tn td hrun hsplit hn
    hpre hpost hdst htn htd, ?_⟩
  by_cases hlt : td < tn <;> simp [hlt]

/-- Witness: in the S5 merge the updated note keeps the destination's
`user_mark_id` and `location_id`. -/
theorem merge_notes_update_preserves_references_witness :
    ∃ (s' : MergeState) (out : Note),
      merge_notes demoParseTs c1State = Except.ok s' ∧
      s'.dst.notes.get? 0 = some out ∧
      out.user_mark_id = s5OldNote.user_mark_id ∧
      out.location_id = s5OldNote.location_id := by
  obtain ⟨out, h1, h2, h3, _⟩ := merge_notes_update_preserves_references demoParseTs c1State _
    266567197365317649698407360119363144252 [] [] s5NewNote 0 s5OldNote
    1609459200 1577836800 rfl rfl rfl (by simp) (by simp) rfl rfl rfl
  exact ⟨_, out, rfl, h1, h2, h3⟩
